import Mathlib

/-!
Botkube configuration validator (`pkg/config/validator.go`)

A shallow embedding of the struct-level validators of `pkg/config/validator.go`.

* A Go `map[string]V` is an association list `GoMap V`; the order of the list is the
  order in which one `range` loop visits the entries.  Functions accept any list; the
  theorems assume `GoMap.WF` (no key twice) where the statement needs it.
* `validator.StructLevel` only collects what `sl.ReportError` is given, so every
  validator returns the list of violations it reports, in the order of the calls.
* A Go string is a Lean `String`; the channel patterns count and test characters, as Go's
  `regexp` counts and tests runes.
* Functions declared outside `validator.go` (`validateBoundPlugins`,
  `conversation.NormalizeChannelIdentifier`, `CollectCommandPrefixes`, `command.AllVerbs`)
  and the constant `allValuesPattern` are parameters of the functions that use them.
* What the validator library returns to `ValidateStruct` (registrations, `validate.Struct`,
  translations) is gathered in a `ValidatorLibrary`.
-/

namespace Botkube

/-! ## Constants of `validator.go` -/

def regexConstraintsIncludeTag : String := "rs-include-regex"
def invalidBindingTag : String := "invalid_binding"
def invalidChannelNameTag : String := "invalid_channel_name"
def invalidChannelIDTag : String := "invalid_channel_id"
def conflictingPluginRepoTag : String := "conflicting_plugin_repo"
def conflictingPluginVersionTag : String := "conflicting_plugin_version"
def invalidPluginDefinitionTag : String := "invalid_plugin_definition"
def invalidAliasCommandTag : String := "invalid_alias_command"
def invalidPluginRBACTag : String := "invalid_plugin_rbac"
def invalidActionRBACTag : String := "invalid_action_tag"
def appTokenPrefix : String := "xapp-"
def botTokenPrefix : String := "xoxb-"

def slackDocsURL : String := "https://api.slack.com/methods/conversations.rename#naming"
def discordDocsURL : String :=
  "https://support.discord.com/hc/en-us/articles/206346498-Where-can-I-find-my-User-Server-Message-ID-"
def mattermostDocsURL : String :=
  "https://docs.mattermost.com/channels/channel-naming-conventions.html"

/-! ## Go maps -/

/-- A Go `map[string]V`, as the list of its entries in the order a `range` visits them. -/
abbrev GoMap (V : Type) := List (String × V)

namespace GoMap

/-- The keys, in visiting order. -/
def keys {V : Type} (m : GoMap V) : List String := m.map Prod.fst

/-- The two-valued index expression `v, ok := m[k]`; `none` stands for `ok = false`. -/
def get? {V : Type} (m : GoMap V) (k : String) : Option V := List.lookup k m

/-- The index expression `m[k]`: the zero value of `V` when the key is missing. -/
def get {V : Type} [Inhabited V] (m : GoMap V) (k : String) : V := (m.get? k).getD default

/-- A list that can be the entries of a Go map: no key occurs twice. -/
def WF {V : Type} (m : GoMap V) : Prop := (keys m).Nodup

instance {V : Type} (m : GoMap V) : Decidable (WF m) := by
  unfold WF; infer_instance

end GoMap

/-! ## Violations -/

/-- What one call `sl.ReportError(field, fieldName, structFieldName, tag, param)` records.
The first argument (the offending value) is not used by any message and is left out. -/
structure Violation where
  fieldName : String
  structFieldName : String
  tag : String
  param : String
deriving DecidableEq

/-- The call `sl.ReportError(_, fieldName, structFieldName, tag, param)`. -/
def ReportError (fieldName structFieldName tag param : String) : Violation :=
  { fieldName := fieldName, structFieldName := structFieldName, tag := tag, param := param }

/-! ## Data model -/

/-- Modelled from the spec: the constant `ChannelNamePolicySubjectType` is declared outside
the sources; the spec names the subject type "ChannelName". -/
def ChannelNamePolicySubjectType : String := "ChannelName"

/-- Modelled from the spec: the RBAC declarations are outside the sources; the spec gives a
policy a `Group` with a `Type` ("ChannelName" or "Static") and a target value. -/
structure GroupPolicySubject where
  Typ : String
  Value : String
deriving DecidableEq

/-- Modelled from the spec: an RBAC policy; two policies are equal under structural
equality, which is what `reflect.DeepEqual` decides on them. -/
structure PolicyRule where
  Group : GroupPolicySubject
deriving DecidableEq

/-- Modelled from the spec: `PluginConfig.Context`, holding `RBAC: RBACPolicy | nil`. -/
structure PluginContext where
  RBAC : Option PolicyRule
deriving DecidableEq

/-- Modelled from the spec: a `PluginConfig` has `Enabled: bool` and `Context.RBAC`. -/
structure Plugin where
  Enabled : Bool
  Context : PluginContext
deriving DecidableEq

/-- The type `Plugins`: plugin key to plugin configuration. -/
abbrev Plugins := GoMap Plugin

/-- Modelled from the spec: `Sources` owns `Plugins`. The zero value has no plugin. -/
structure Sources where
  Plugins : Plugins
deriving DecidableEq

/-- Modelled from the spec: `Executors` owns `Plugins`. The zero value has no plugin. -/
structure Executors where
  Plugins : Plugins
deriving DecidableEq

instance : Inhabited Sources := ⟨{ Plugins := [] }⟩
instance : Inhabited Executors := ⟨{ Plugins := [] }⟩

/-- The interface `pluginProvider`: anything exposing `GetPlugins() Plugins`. -/
class pluginProvider (P : Type) where
  GetPlugins : P → Plugins

instance : pluginProvider Sources := ⟨fun s => s.Plugins⟩
instance : pluginProvider Executors := ⟨fun e => e.Plugins⟩

/-! ## Binding validators -/

/-- The inner loop shared by the binding validators: the keys of the enabled plugins of one
plugin map, in visiting order (`if !plugin.Enabled { continue }; append(..., pluginKey)`). -/
def enabledPluginKeys (plugins : Plugins) : List String :=
  (plugins.filter (fun e => e.2.Enabled)).map Prod.fst

/-- The statement `groups[pluginKey] = append(groups[pluginKey], b)` of `validatePluginRBAC`:
an existing entry is extended in place, a new key gets a new entry. -/
def appendGroup : GoMap (List String) → String → String → GoMap (List String)
  | [], pluginKey, b => [(pluginKey, [b])]
  | (k, occ) :: rest, pluginKey, b =>
    if k = pluginKey then (k, occ ++ [b]) :: rest
    else (k, occ) :: appendGroup rest pluginKey b

/-- Step 1 of `validatePluginRBAC` ("identify duplicates"): for every binding in order and
every enabled plugin of `pluginConfigs[b]`, append `b` to the group of the plugin key. The
resulting list is visited by step 2 in the order of first insertion, one of the orders a
`range groups` can take. -/
def rbacGroups {P : Type} [Inhabited P] [pluginProvider P]
    (pluginConfigs : GoMap P) (bindings : List String) : GoMap (List String) :=
  bindings.foldl
    (fun groups b =>
      (enabledPluginKeys (pluginProvider.GetPlugins (pluginConfigs.get b))).foldl
        (fun groups pluginKey => appendGroup groups pluginKey b) groups)
    []

/-- The body of the loop of step 2 of `validatePluginRBAC` for one group. -/
def compareGroup {P : Type} [Inhabited P] [pluginProvider P]
    (pluginConfigs : GoMap P) (plugin : String) (occurrences : List String) : List Violation :=
  if occurrences.length < 2 then []
  else
    match occurrences with
    | [] => []
    | p1 :: tail =>
      match (pluginProvider.GetPlugins (pluginConfigs.get p1)).get? plugin with
      | none => []
      | some p1Cfg =>
        let firstRBAC := p1Cfg.Context.RBAC
        tail.flatMap (fun nextIdx =>
          match (pluginProvider.GetPlugins (pluginConfigs.get nextIdx)).get? plugin with
          | none => []
          | some nextCfg =>
            if firstRBAC ≠ nextCfg.Context.RBAC then
              [ReportError p1 p1 invalidPluginRBACTag nextIdx]
            else [])

/-- The function `validatePluginRBAC`, with `range groups` visiting the groups in the order
of `rbacGroups`; `validatePluginRBACVisiting` gives the report for any other order. -/
def validatePluginRBAC {P : Type} [Inhabited P] [pluginProvider P]
    (pluginConfigs : GoMap P) (bindings : List String) : List Violation :=
  (rbacGroups pluginConfigs bindings).flatMap
    (fun g => compareGroup pluginConfigs g.1 g.2)

/-- Step 2 of `validatePluginRBAC` when `range groups` visits the entries of the map in the
order of the list `groups`: any permutation of `rbacGroups pluginConfigs bindings` is an
order the loop can take. `validatePluginRBAC` is the case of the order of first
insertion. -/
def validatePluginRBACVisiting {P : Type} [Inhabited P] [pluginProvider P]
    (pluginConfigs : GoMap P) (groups : GoMap (List String)) : List Violation :=
  groups.flatMap (fun g => compareGroup pluginConfigs g.1 g.2)

/-- The function `validateSourceBindings`. `validateBoundPlugins` is declared outside the
sources and is a parameter: it receives the collected keys and reports what it reports. -/
def validateSourceBindings (validateBoundPlugins : List String → List Violation)
    (sources : GoMap Sources) (bindings : List String) : List Violation :=
  let reported := bindings.flatMap (fun source =>
    match sources.get? source with
    | none => [ReportError source source invalidBindingTag "Config.Sources"]
    | some _ => [])
  let enabledPluginsViaBindings := bindings.flatMap (fun source =>
    enabledPluginKeys (sources.get source).Plugins)
  reported ++ validateBoundPlugins enabledPluginsViaBindings
    ++ validatePluginRBAC sources bindings

/-- The function `validateExecutorBindings`, with `validateBoundPlugins` as a parameter. -/
def validateExecutorBindings (validateBoundPlugins : List String → List Violation)
    (executors : GoMap Executors) (bindings : List String) : List Violation :=
  let reported := bindings.flatMap (fun executor =>
    match executors.get? executor with
    | none => [ReportError executor executor invalidBindingTag "Config.Executors"]
    | some _ => [])
  let enabledPluginsViaBindings := bindings.flatMap (fun executor =>
    enabledPluginKeys (executors.get executor).Plugins)
  reported ++ validateBoundPlugins enabledPluginsViaBindings
    ++ validatePluginRBAC executors bindings

/-- The body of the inner loop of `validateActionExecutors`, for the plugin `plugin` found
under `pluginKey` in the executor named `executor`. -/
def actionExecutorPlugin (executor pluginKey : String) (plugin : Plugin) : List Violation :=
  if !plugin.Enabled then []
  else
    match plugin.Context.RBAC with
    | none => []
    | some rbac =>
      if rbac.Group.Typ = ChannelNamePolicySubjectType then
        [ReportError pluginKey executor invalidActionRBACTag ""]
      else []

/-- The function `validateActionExecutors`. -/
def validateActionExecutors (executors : GoMap Executors) (bindings : List String) :
    List Violation :=
  bindings.flatMap (fun executor =>
    let execConf := executors.get executor
    execConf.Plugins.flatMap (fun e => actionExecutorPlugin executor e.1 e.2))

/-! ## Channel identifier patterns -/

/-- One item of a bracketed character class of a Go regular expression. -/
inductive ClassItem where
  | range (lo hi : Char)
  | space
  | notSpace
deriving DecidableEq

/-- The Perl class `\s` of Go's `regexp/syntax`: tab, newline, form feed, carriage return,
space. -/
def isPerlSpace (c : Char) : Bool :=
  c = '\t' || c = '\n' || c = '\x0c' || c = '\r' || c = ' '

/-- Whether a character belongs to one class item. -/
def ClassItem.has : ClassItem → Char → Bool
  | .range lo hi, c => decide (lo.toNat ≤ c.toNat) && decide (c.toNat ≤ hi.toNat)
  | .space, c => isPerlSpace c
  | .notSpace, c => !isPerlSpace c

/-- A compiled pattern of the shape `^[items]{min,max}$` (`max = none` for `*`), the shape
of the three channel patterns of `validator.go`. -/
structure Regexp where
  items : List ClassItem
  min : Nat
  max : Option Nat

/-- Whether the class of the pattern contains the character. -/
def Regexp.classHas (re : Regexp) (c : Char) : Bool := re.items.any (fun i => i.has c)

/-- Matching of the remaining input after `n` characters of the class were consumed; the
anchors `^` and `$` force the whole input to be consumed by the repetition. -/
def Regexp.matchFrom (re : Regexp) : Nat → List Char → Bool
  | n, [] => decide (re.min ≤ n)
  | n, c :: cs =>
    (match re.max with
      | none => true
      | some m => decide (n + 1 ≤ m)) && re.classHas c && re.matchFrom (n + 1) cs

/-- The method `regex.MatchString(s)`. -/
def Regexp.MatchString (re : Regexp) (s : String) : Bool := re.matchFrom 0 s.toList

/-- The pattern `^[a-z0-9-_]{1,79}$`: the hyphen after the range `0-9` is a literal. -/
def slackChannelNameRegex : Regexp :=
  { items := [.range 'a' 'z', .range '0' '9', .range '-' '-', .range '_' '_'],
    min := 1, max := some 79 }

/-- The pattern `^[0-9]*$`. -/
def discordChannelIDRegex : Regexp :=
  { items := [.range '0' '9'], min := 0, max := none }

/-- The pattern `^[\s\S]{1,64}$`. -/
def mattermostChannelNameRegex : Regexp :=
  { items := [.space, .notSpace], min := 1, max := some 64 }

/-! ## Platforms and channels -/

/-- The interface `Identifiable`: anything exposing `Identifier() string`. -/
class Identifiable (T : Type) where
  Identifier : T → String

/-- Modelled from the spec: a channel identified by its name (Slack variants, Mattermost). -/
structure ChannelBindingsByName where
  Name : String
deriving DecidableEq

/-- Modelled from the spec: a channel identified by its numeric ID (Discord). -/
structure ChannelBindingsByID where
  ID : String
deriving DecidableEq

instance : Identifiable ChannelBindingsByName := ⟨fun c => c.Name⟩
instance : Identifiable ChannelBindingsByID := ⟨fun c => c.ID⟩

/-- Modelled from the spec: the fields of `Slack` that `slackStructTokenValidator` reads,
and its channel map. -/
structure Slack where
  Enabled : Bool
  Channels : GoMap ChannelBindingsByName
  Token : String

/-- Modelled from the spec: the fields of `SocketSlack` that `socketSlackValidator` reads. -/
structure SocketSlack where
  Enabled : Bool
  Channels : GoMap ChannelBindingsByName
  BotToken : String
  AppToken : String

/-- Modelled from the spec: the fields of `CloudSlack` that `cloudSlackValidator` reads. -/
structure CloudSlack where
  Enabled : Bool
  Channels : GoMap ChannelBindingsByName

/-- Modelled from the spec: the fields of `Discord` that `discordValidator` reads. -/
structure Discord where
  Enabled : Bool
  Channels : GoMap ChannelBindingsByID

/-- Modelled from the spec: the fields of `Mattermost` that `mattermostValidator` reads. -/
structure Mattermost where
  Enabled : Bool
  Channels : GoMap ChannelBindingsByName

/-- The call `strings.HasPrefix(s, pre)`. -/
def HasPrefix (s pre : String) : Bool := pre.toList.isPrefixOf s.toList

/-- The `range channels` loop of `validateChannels`. An empty identifier reports `required`
and executes `return`, which leaves the function: the rest of the map is not visited.
`normalize` is the first result of `conversation.NormalizeChannelIdentifier`, a function
declared outside the sources. -/
def validateChannelsLoop {T : Type} [Identifiable T] (normalize : String → String)
    (regex : Regexp) (shouldNormalize : Bool) (fieldName docsURL : String) :
    GoMap T → List Violation
  | [] => []
  | (channelAlias, channel) :: rest =>
    if Identifiable.Identifier channel = "" then
      [ReportError fieldName fieldName "required" ""]
    else
      let channelIdentifier :=
        if shouldNormalize then normalize (Identifiable.Identifier channel)
        else Identifiable.Identifier channel
      let valid := regex.MatchString channelIdentifier
      (if !valid then
          [ReportError (Identifiable.Identifier channel) (channelAlias ++ "." ++ fieldName)
            invalidChannelNameTag docsURL]
        else [])
        ++ validateChannelsLoop normalize regex shouldNormalize fieldName docsURL rest

/-- The function `validateChannels`. -/
def validateChannels {T : Type} [Identifiable T] (normalize : String → String)
    (regex : Regexp) (shouldNormalize : Bool) (channels : GoMap T)
    (fieldName docsURL : String) : List Violation :=
  (if channels.length = 0 then [ReportError "Channels" "Channels" "required" ""] else [])
    ++ validateChannelsLoop normalize regex shouldNormalize fieldName docsURL channels

/-- The function `slackStructTokenValidator`. -/
def slackStructTokenValidator (slack : Slack) : List Violation :=
  if !slack.Enabled then []
  else if slack.Token = "" then [ReportError "Token" "Token" "required" ""]
  else if !HasPrefix slack.Token botTokenPrefix then
    [ReportError "Token" "Token" "invalid_slack_token"
      ("must have the " ++ botTokenPrefix ++ " prefix. Learn more at https://docs.botkube.io/installation/slack/#install-botkube-slack-app-to-your-slack-workspace")]
  else []

/-- The function `socketSlackValidator`. -/
def socketSlackValidator (normalize : String → String) (slack : SocketSlack) :
    List Violation :=
  if !slack.Enabled then []
  else
    (if slack.AppToken = "" then [ReportError "AppToken" "AppToken" "required" ""] else [])
    ++ (if slack.BotToken = "" then [ReportError "BotToken" "BotToken" "required" ""] else [])
    ++ (if !HasPrefix slack.BotToken botTokenPrefix then
          [ReportError "BotToken" "BotToken" "invalid_slack_token"
            ("must have the " ++ botTokenPrefix ++ " prefix. Learn more at https://docs.botkube.io/installation/socketslack/#obtain-bot-token")]
        else [])
    ++ (if !HasPrefix slack.AppToken appTokenPrefix then
          [ReportError "AppToken" "AppToken" "invalid_slack_token"
            ("must have the " ++ appTokenPrefix ++ " prefix. Learn more at https://docs.botkube.io/installation/socketslack/#generate-and-obtain-app-level-token")]
        else [])
    ++ validateChannels normalize slackChannelNameRegex true slack.Channels "Name" slackDocsURL

/-- The function `cloudSlackValidator`. -/
def cloudSlackValidator (normalize : String → String) (slack : CloudSlack) :
    List Violation :=
  if !slack.Enabled then []
  else validateChannels normalize slackChannelNameRegex true slack.Channels "Name" slackDocsURL

/-- The function `discordValidator`. -/
def discordValidator (normalize : String → String) (discord : Discord) : List Violation :=
  if !discord.Enabled then []
  else validateChannels normalize discordChannelIDRegex true discord.Channels "ID" discordDocsURL

/-- The function `mattermostValidator`. -/
def mattermostValidator (normalize : String → String) (mattermost : Mattermost) :
    List Violation :=
  if !mattermost.Enabled then []
  else
    validateChannels normalize mattermostChannelNameRegex false mattermost.Channels "Name"
      mattermostDocsURL

/-- An example of a normaliser: it drops the spaces around the identifier and then the
leading `#` characters. Used only to evaluate the validators on concrete inputs. -/
def trimNormalize (s : String) : String :=
  String.mk ((((s.toList.dropWhile (fun c => c = ' ')).reverse.dropWhile
    (fun c => c = ' ')).reverse).dropWhile (fun c => c = '#'))

/-! ## Aliases and regex constraints -/

/-- Modelled from the spec: an `Alias` has `Command: string`. -/
structure Alias where
  Command : String
deriving DecidableEq

/-- Modelled from the spec: `RegexConstraints` has `Include: []string`. -/
structure RegexConstraints where
  Include : List String
deriving DecidableEq

/-- The first result of `strings.Cut(s, " ")`: the part of `s` before the first space, the
whole of `s` when it holds no space. -/
def cutBefore (s : String) : String := String.mk (s.toList.takeWhile (fun c => c ≠ ' '))

/-- The last loop of `aliasesStructValidator`: `true` when it reaches `return` on a member
equal to `cmdPrefix`, `false` when the loop ends without. -/
def prefixFound (cmdPrefix : String) : List String → Bool
  | [] => false
  | p :: rest => if p ≠ cmdPrefix then prefixFound cmdPrefix rest else true

/-- The function `aliasesStructValidator`. The method `CollectCommandPrefixes` of
`Executors` and the function `command.AllVerbs` are declared outside the sources and are
parameters (`AllVerbs` already converted to strings). -/
def aliasesStructValidator (CollectCommandPrefixes : Executors → List String)
    (AllVerbs : List String) (executors : GoMap Executors) (aliasCfg : Alias) :
    List Violation :=
  if aliasCfg.Command = "" then []
  else
    let cmdPrefix := cutBefore aliasCfg.Command
    let prefixesToCheck :=
      executors.flatMap (fun e => CollectCommandPrefixes e.2) ++ AllVerbs
    if prefixFound cmdPrefix prefixesToCheck then []
    else [ReportError cmdPrefix "Command" invalidAliasCommandTag ""]

/-- The closure `foundAllValuesPattern` of `regexConstraintsStructValidator`. -/
def foundAllValuesPattern (allValuesPattern : String) : List String → Bool
  | [] => false
  | name :: rest =>
    if name = allValuesPattern then true else foundAllValuesPattern allValuesPattern rest

/-- The function `regexConstraintsStructValidator`. The constant `allValuesPattern` is
declared outside the sources and is a parameter. -/
def regexConstraintsStructValidator (allValuesPattern : String) (rc : RegexConstraints) :
    List Violation :=
  if rc.Include.length < 2 then []
  else if foundAllValuesPattern allValuesPattern rc.Include then
    [ReportError "Include" "Include" regexConstraintsIncludeTag ""]
  else []

/-! ## `ValidateStruct` -/

/-- A Go `error` value, by its message. -/
abbrev Error := String

/-- The variable `warnsOnlyTags`, a set of tags. -/
def warnsOnlyTags : List String :=
  [regexConstraintsIncludeTag, invalidChannelNameTag, invalidChannelIDTag]

/-- The type `ValidateResult`; `none` is the nil `*multierror.Error`. -/
structure ValidateResult where
  Criticals : Option (List Error)
  Warnings : Option (List Error)
deriving DecidableEq

/-- Modelled from the spec: `multierrx.New` of `pkg/multierror`, outside the sources: a
fresh, empty, non-nil error list. -/
def multierrx.New : Option (List Error) := some []

/-- Modelled from the spec: `multierrx.Append` of `pkg/multierror`, outside the sources: the
list with one more error at its end (the lists are ordered and append-only). -/
def multierrx.Append (err : Option (List Error)) (e : Error) : Option (List Error) :=
  some (err.getD [] ++ [e])

/-- What `validate.Struct(in)` returns: nil, a `validator.ValidationErrors` list, or an
error of another type. -/
inductive StructOutcome where
  | noError
  | validationErrors (errs : List Violation)
  | other (err : Error)

/-- The results of the calls that `ValidateStruct` makes into the validator library during
one run: registering the default translations, registering one translation (by tag and
text; every tag is registered once), validating the struct, and the namespace and
translation of a field error. -/
structure ValidatorLibrary where
  RegisterDefaultTranslations : Option Error
  RegisterTranslation : String → String → Option Error
  Struct : StructOutcome
  StructNamespace : Violation → String
  Translate : Violation → String

/-- The function `registerTranslation`: the first error of a registration ends the loop. -/
def registerTranslation (lib : ValidatorLibrary) : GoMap String → Option Error
  | [] => none
  | (tag, text) :: rest =>
    match lib.RegisterTranslation tag text with
    | some err => some err
    | none => registerTranslation lib rest

/-- The function `registerCustomTranslations`. -/
def registerCustomTranslations (lib : ValidatorLibrary) : Option Error :=
  registerTranslation lib
    [("invalid_slack_token", "{0} {1}"),
     (invalidChannelNameTag,
      "The channel name '{0}' seems to be invalid. See the documentation to learn more: {1}.")]

/-- The function `registerRegexConstraintsValidator`. -/
def registerRegexConstraintsValidator (lib : ValidatorLibrary) : Option Error :=
  registerTranslation lib
    [(regexConstraintsIncludeTag,
      "{0} contains multiple constraints, but it does already include a regex pattern for all values")]

/-- The function `registerBindingsValidator`. -/
def registerBindingsValidator (lib : ValidatorLibrary) : Option Error :=
  registerTranslation lib
    [(invalidBindingTag, "'{0}' binding not defined in {1}"),
     (conflictingPluginRepoTag, "{0}{1}"),
     (conflictingPluginVersionTag, "{0}{1}"),
     (invalidPluginDefinitionTag, "{0}{1}"),
     (invalidPluginRBACTag,
      "Binding is referencing plugins of same kind with different RBAC. '{0}' and '{1}' bindings must be identical when used together."),
     (invalidActionRBACTag,
      "Plugin {0} has 'ChannelName' RBAC policy. This is not supported for actions. See https://docs.botkube.io/configuration/action#rbac")]

/-- The function `registerAliasValidator`. -/
def registerAliasValidator (lib : ValidatorLibrary) : Option Error :=
  registerTranslation lib
    [(invalidAliasCommandTag,
      "Command prefix '{0}' not found in executors or builtin commands")]

/-- The body of the loop `for _, e := range errs` of `ValidateStruct`. -/
def appendViolation (lib : ValidatorLibrary) (result : ValidateResult) (e : Violation) :
    ValidateResult :=
  let msg := "Key: '" ++ lib.StructNamespace e ++ "' " ++ lib.Translate e
  if e.tag ∈ warnsOnlyTags then
    { result with Warnings := multierrx.Append result.Warnings msg }
  else
    { result with Criticals := multierrx.Append result.Criticals msg }

/-- The function `ValidateStruct`, as a function of what the library returns. -/
def ValidateStruct (lib : ValidatorLibrary) : ValidateResult × Option Error :=
  match lib.RegisterDefaultTranslations with
  | some err => ({ Criticals := none, Warnings := none }, some err)
  | none =>
  match registerCustomTranslations lib with
  | some err => ({ Criticals := none, Warnings := none }, some err)
  | none =>
  match registerRegexConstraintsValidator lib with
  | some err => ({ Criticals := none, Warnings := none }, some err)
  | none =>
  match registerBindingsValidator lib with
  | some err => ({ Criticals := none, Warnings := none }, some err)
  | none =>
  match registerAliasValidator lib with
  | some err => ({ Criticals := none, Warnings := none }, some err)
  | none =>
  match lib.Struct with
  | .noError => ({ Criticals := none, Warnings := none }, none)
  | .other err => ({ Criticals := none, Warnings := none }, some err)
  | .validationErrors errs =>
    (errs.foldl (appendViolation lib)
      { Criticals := multierrx.New, Warnings := multierrx.New }, none)

/-- The message that `ValidateStruct` builds for a violation. -/
def violationMessage (lib : ValidatorLibrary) (e : Violation) : Error :=
  "Key: '" ++ lib.StructNamespace e ++ "' " ++ lib.Translate e

/-- A library run in which every registration succeeds and `validate.Struct` returns the
given outcome. Used to evaluate `ValidateStruct` on concrete inputs. -/
def quietLibrary (outcome : StructOutcome) : ValidatorLibrary :=
  { RegisterDefaultTranslations := none,
    RegisterTranslation := fun _ _ => none,
    Struct := outcome,
    StructNamespace := fun e => e.structFieldName,
    Translate := fun e => e.tag }

/-! ## Auxiliary definitions used in the statements and proofs -/

/-- The violations reported by the loop of a binding validator for the names missing from
the map `m`, with `param` the name of the map. -/
def missingReports {V : Type} (m : GoMap V) (param : String) (bindings : List String) :
    List Violation :=
  bindings.flatMap (fun name =>
    match m.get? name with
    | none => [ReportError name name invalidBindingTag param]
    | some _ => [])

/-- The value of `groups[k]`: the empty slice when the key is missing. -/
def groupOf (g : GoMap (List String)) (k : String) : List String := (g.get? k).getD []

/-- The invariant of the map `groups`: no key twice and no empty group. -/
def GroupsInv (g : GoMap (List String)) : Prop := g.WF ∧ ∀ e ∈ g, e.2 ≠ []

/-- Whether the binding `b` holds an enabled plugin with key `k`. -/
def enabledIn {P : Type} [Inhabited P] [pluginProvider P]
    (pluginConfigs : GoMap P) (k b : String) : Bool :=
  match (pluginProvider.GetPlugins (pluginConfigs.get b)).get? k with
  | some p => p.Enabled
  | none => false

/-- The condition under which `validateActionExecutors` reports a plugin. -/
def offends (p : Plugin) : Bool :=
  p.Enabled &&
    (match p.Context.RBAC with
      | some r => decide (r.Group.Typ = ChannelNamePolicySubjectType)
      | none => false)

/-- The identifier that `validateChannels` gives to the pattern. -/
def testedIdentifier (normalize : String → String) (shouldNormalize : Bool)
    (identifier : String) : String :=
  if shouldNormalize then normalize identifier else identifier

/-- The plugin map `plugins'` is `plugins` with the context (hence the RBAC policy) of some
disabled plugins replaced: the same keys in the same order, the same `Enabled` flags, and
every enabled plugin unchanged. -/
def DisabledReplaced (plugins plugins' : Plugins) : Prop :=
  List.Forall₂
    (fun e e' => e.1 = e'.1 ∧ e.2.Enabled = e'.2.Enabled ∧ (e.2.Enabled = true → e.2 = e'.2))
    plugins plugins'

/-- The plugin maps `plugins` and `plugins'` agree as maps except for the contexts (hence
the RBAC policies) of disabled plugins: under every key both hold nothing, or both hold a
plugin with the same `Enabled` flag, the same plugin when it is enabled. No visiting order
is involved. -/
def SameButDisabled (plugins plugins' : Plugins) : Prop :=
  ∀ k, (plugins.get? k = none ∧ plugins'.get? k = none)
    ∨ ∃ p p', plugins.get? k = some p ∧ plugins'.get? k = some p'
        ∧ p.Enabled = p'.Enabled ∧ (p.Enabled = true → p = p')

/-- The plugin map with the RBAC policy of the plugin `k` replaced by `rbac`, when that
plugin is disabled. -/
def replaceDisabledRBAC (plugins : Plugins) (k : String) (rbac : Option PolicyRule) :
    Plugins :=
  plugins.map (fun e =>
    if e.1 = k ∧ e.2.Enabled = false then (e.1, { e.2 with Context := { RBAC := rbac } })
    else e)

/-! ## Lemmas on Go maps -/

theorem GoMap.get?_eq_none_iff {V : Type} (m : GoMap V) (k : String) :
    m.get? k = none ↔ k ∉ m.keys := by
  induction m with
  | nil => simp [GoMap.get?, GoMap.keys]
  | cons e rest ih =>
    obtain ⟨k', v⟩ := e
    simp only [GoMap.get?, GoMap.keys, List.map_cons, List.mem_cons, not_or] at ih ⊢
    by_cases h : k = k'
    · subst h; simp [List.lookup]
    · have h' : (k == k') = false := by simpa using h
      simp [List.lookup, h', h, ih]

theorem GoMap.get?_eq_some_iff {V : Type} (m : GoMap V) (hm : m.WF) (k : String) (v : V) :
    m.get? k = some v ↔ (k, v) ∈ m := by
  induction m with
  | nil => simp [GoMap.get?]
  | cons e rest ih =>
    obtain ⟨k', v'⟩ := e
    have hm' : GoMap.WF rest := by
      simp only [GoMap.WF, GoMap.keys, List.map_cons, List.nodup_cons] at hm ⊢
      exact hm.2
    have hk' : ∀ w, (k', w) ∉ rest := by
      intro w hw
      simp only [GoMap.WF, GoMap.keys, List.map_cons, List.nodup_cons] at hm
      exact hm.1 (List.mem_map_of_mem Prod.fst hw)
    simp only [GoMap.get?] at ih ⊢
    by_cases h : k = k'
    · subst h
      simp only [List.lookup, beq_self_eq_true, List.mem_cons, Prod.mk.injEq, true_and,
        Option.some.injEq]
      constructor
      · intro h; exact Or.inl h.symm
      · rintro (h | h)
        · exact h.symm
        · exact absurd h (hk' v)
    · have h' : (k == k') = false := by simpa using h
      simp [List.lookup, h', h, ih hm']

/-! ## Lemmas on the binding validators -/

theorem validatePluginRBAC_tag {P : Type} [Inhabited P] [pluginProvider P]
    (pluginConfigs : GoMap P) (bindings : List String) (v : Violation)
    (hv : v ∈ validatePluginRBAC pluginConfigs bindings) : v.tag = invalidPluginRBACTag := by
  simp only [validatePluginRBAC, List.mem_flatMap] at hv
  obtain ⟨g, -, hv⟩ := hv
  unfold compareGroup at hv
  split at hv
  · simp at hv
  · split at hv
    · simp at hv
    · split at hv
      · simp at hv
      · simp only [List.mem_flatMap] at hv
        obtain ⟨n, -, hv⟩ := hv
        split at hv
        · simp at hv
        · split at hv
          · simp only [List.mem_singleton] at hv
            subst hv; rfl
          · simp at hv

theorem mem_missingReports {V : Type} (m : GoMap V) (param : String)
    (bindings : List String) (v : Violation) :
    v ∈ missingReports m param bindings ↔
      ∃ name ∈ bindings, name ∉ m.keys ∧ v = ReportError name name invalidBindingTag param := by
  simp only [missingReports, List.mem_flatMap]
  constructor
  · rintro ⟨name, hn, hv⟩
    split at hv
    · rename_i hnone
      exact ⟨name, hn, (GoMap.get?_eq_none_iff m name).1 hnone, by simpa using hv⟩
    · simp at hv
  · rintro ⟨name, hn, habs, hv⟩
    refine ⟨name, hn, ?_⟩
    rw [(GoMap.get?_eq_none_iff m name).2 habs]
    simp [hv]

theorem length_missingReports {V : Type} (m : GoMap V) (param : String)
    (bindings : List String) :
    (missingReports m param bindings).length
      = (bindings.filter (fun name => decide (name ∉ m.keys))).length := by
  induction bindings with
  | nil => simp [missingReports]
  | cons b rest ih =>
    simp only [missingReports, List.flatMap_cons, List.length_append] at ih ⊢
    rw [ih]
    by_cases hb : b ∈ m.keys
    · have hsome : m.get? b ≠ none := fun h => (GoMap.get?_eq_none_iff m b).1 h hb
      cases hg : m.get? b with
      | none => exact absurd hg hsome
      | some x => simp [List.filter_cons, hb]
    · rw [(GoMap.get?_eq_none_iff m b).2 hb]
      simp [List.filter_cons, hb]
      omega

theorem validateSourceBindings_eq (vbp : List String → List Violation)
    (sources : GoMap Sources) (bindings : List String) :
    validateSourceBindings vbp sources bindings
      = missingReports sources "Config.Sources" bindings
        ++ vbp (bindings.flatMap (fun source => enabledPluginKeys (sources.get source).Plugins))
        ++ validatePluginRBAC sources bindings := by
  unfold validateSourceBindings missingReports
  simp only []
  congr 3
  funext name
  cases GoMap.get? sources name <;> rfl

theorem validateExecutorBindings_eq (vbp : List String → List Violation)
    (executors : GoMap Executors) (bindings : List String) :
    validateExecutorBindings vbp executors bindings
      = missingReports executors "Config.Executors" bindings
        ++ vbp (bindings.flatMap (fun e => enabledPluginKeys (executors.get e).Plugins))
        ++ validatePluginRBAC executors bindings := by
  unfold validateExecutorBindings missingReports
  simp only []
  congr 3
  funext name
  cases GoMap.get? executors name <;> rfl

/-- The `invalid_binding` violations of a list of the shape produced by a binding validator
are those of its loop, when `validateBoundPlugins` reports none with that tag. -/
theorem filter_invalidBinding {V P : Type} [Inhabited P] [pluginProvider P]
    (m : GoMap V) (param : String) (bindings : List String)
    (extra : List Violation) (hextra : ∀ v ∈ extra, v.tag ≠ invalidBindingTag)
    (pluginConfigs : GoMap P) :
    (missingReports m param bindings ++ extra
        ++ validatePluginRBAC pluginConfigs bindings).filter
      (fun v => decide (v.tag = invalidBindingTag))
      = missingReports m param bindings := by
  rw [List.filter_append, List.filter_append]
  have h1 : (missingReports m param bindings).filter
      (fun v => decide (v.tag = invalidBindingTag)) = missingReports m param bindings := by
    rw [List.filter_eq_self]
    intro v hv
    obtain ⟨name, -, -, rfl⟩ := (mem_missingReports m param bindings v).1 hv
    simp [ReportError]
  have h2 : extra.filter (fun v => decide (v.tag = invalidBindingTag)) = [] := by
    rw [List.filter_eq_nil_iff]
    intro v hv
    simpa using hextra v hv
  have h3 : (validatePluginRBAC pluginConfigs bindings).filter
      (fun v => decide (v.tag = invalidBindingTag)) = [] := by
    rw [List.filter_eq_nil_iff]
    intro v hv
    rw [validatePluginRBAC_tag pluginConfigs bindings v hv]
    decide
  rw [h1, h2, h3]; simp

/-! ## Lemmas on the RBAC groups -/

theorem groupOf_appendGroup (g : GoMap (List String)) (k b k' : String) :
    groupOf (appendGroup g k b) k' = if k' = k then groupOf g k' ++ [b] else groupOf g k' := by
  induction g with
  | nil =>
    by_cases h : k' = k
    · subst h; simp [appendGroup, groupOf, GoMap.get?, List.lookup]
    · have h' : (k' == k) = false := by simpa using h
      simp [appendGroup, groupOf, GoMap.get?, List.lookup, h, h']
  | cons e rest ih =>
    obtain ⟨k0, occ⟩ := e
    simp only [appendGroup]
    by_cases h0 : k0 = k
    · subst h0
      by_cases h : k' = k0
      · subst h; simp [groupOf, GoMap.get?, List.lookup]
      · have h' : (k' == k0) = false := by simpa using h
        simp [groupOf, GoMap.get?, List.lookup, h, h']
    · simp only [h0, if_false]
      by_cases h : k' = k0
      · subst h
        have hk : ¬ k' = k := h0
        simp [groupOf, GoMap.get?, List.lookup, hk]
      · have h' : (k' == k0) = false := by simpa using h
        simp only [groupOf, GoMap.get?, List.lookup, h'] at ih ⊢
        exact ih

theorem keys_appendGroup (g : GoMap (List String)) (k b : String) :
    GoMap.keys (appendGroup g k b) = if k ∈ GoMap.keys g then GoMap.keys g else GoMap.keys g ++ [k] := by
  induction g with
  | nil => simp [appendGroup, GoMap.keys]
  | cons e rest ih =>
    obtain ⟨k0, occ⟩ := e
    simp only [appendGroup]
    by_cases h0 : k0 = k
    · subst h0; simp [GoMap.keys]
    · have h1 : ¬ k = k0 := fun h => h0 h.symm
      simp only [h0, if_false, GoMap.keys, List.map_cons, List.mem_cons, h1, false_or] at ih ⊢
      rw [ih]
      split <;> simp

theorem GroupsInv_appendGroup (g : GoMap (List String)) (k b : String) (hg : GroupsInv g) :
    GroupsInv (appendGroup g k b) := by
  constructor
  · have h := hg.1
    simp only [GoMap.WF] at h ⊢
    rw [keys_appendGroup]
    split
    · exact h
    · rename_i hk
      exact List.Nodup.append h (by simp) (by simpa using hk)
  · have h := hg.2
    clear hg
    induction g with
    | nil => simp [appendGroup]
    | cons e rest ih =>
      obtain ⟨k0, occ⟩ := e
      simp only [appendGroup]
      split
      · intro e he
        rcases List.mem_cons.1 he with rfl | he
        · simp
        · exact h e (List.mem_cons_of_mem _ he)
      · intro e he
        rcases List.mem_cons.1 he with rfl | he
        · exact h _ (List.mem_cons_self _ _)
        · exact ih (fun e he => h e (List.mem_cons_of_mem _ he)) e he

theorem foldl_appendGroup (b : String) (ks : List String) (g : GoMap (List String))
    (hg : GroupsInv g) :
    GroupsInv (ks.foldl (fun g k => appendGroup g k b) g)
    ∧ ∀ k', groupOf (ks.foldl (fun g k => appendGroup g k b) g) k'
        = groupOf g k' ++ List.replicate (ks.count k') b := by
  induction ks generalizing g with
  | nil => simp [hg]
  | cons k rest ih =>
    simp only [List.foldl_cons]
    obtain ⟨h1, h2⟩ := ih (appendGroup g k b) (GroupsInv_appendGroup g k b hg)
    refine ⟨h1, fun k' => ?_⟩
    rw [h2 k', groupOf_appendGroup, List.count_cons]
    by_cases h : k' = k
    · subst h
      simp [List.replicate_succ]
    · have h' : ¬ k = k' := fun e => h e.symm
      simp [h, h']

theorem count_enabledPluginKeys (plugins : Plugins) (hwf : plugins.WF) (k : String) :
    (enabledPluginKeys plugins).count k
      = if (∃ p, plugins.get? k = some p ∧ p.Enabled = true) then 1 else 0 := by
  have hnd : (enabledPluginKeys plugins).Nodup := by
    have hsub : List.Sublist (enabledPluginKeys plugins) (GoMap.keys plugins) := by
      simp only [enabledPluginKeys, GoMap.keys]
      exact List.Sublist.map _ (List.filter_sublist _)
    exact hsub.nodup hwf
  have hmem : k ∈ enabledPluginKeys plugins ↔ ∃ p, plugins.get? k = some p ∧ p.Enabled = true := by
    simp only [enabledPluginKeys, List.mem_map, List.mem_filter]
    constructor
    · rintro ⟨⟨k0, p⟩, ⟨hin, hen⟩, rfl⟩
      exact ⟨p, (GoMap.get?_eq_some_iff plugins hwf _ p).2 hin, hen⟩
    · rintro ⟨p, hget, hen⟩
      exact ⟨(k, p), ⟨(GoMap.get?_eq_some_iff plugins hwf k p).1 hget, hen⟩, rfl⟩
  by_cases h : k ∈ enabledPluginKeys plugins
  · rw [List.count_eq_one_of_mem hnd h, if_pos (hmem.1 h)]
  · rw [List.count_eq_zero_of_not_mem h, if_neg (fun h' => h (hmem.2 h'))]

theorem rbacGroups_aux {P : Type} [Inhabited P] [pluginProvider P]
    (pluginConfigs : GoMap P) (bindings : List String)
    (hwf : ∀ b ∈ bindings, (pluginProvider.GetPlugins (pluginConfigs.get b)).WF)
    (g : GoMap (List String)) (hg : GroupsInv g) :
    GroupsInv (bindings.foldl
      (fun groups b =>
        (enabledPluginKeys (pluginProvider.GetPlugins (pluginConfigs.get b))).foldl
          (fun groups pluginKey => appendGroup groups pluginKey b) groups) g)
    ∧ ∀ k, groupOf (bindings.foldl
      (fun groups b =>
        (enabledPluginKeys (pluginProvider.GetPlugins (pluginConfigs.get b))).foldl
          (fun groups pluginKey => appendGroup groups pluginKey b) groups) g) k
        = groupOf g k ++ bindings.filter (fun b => enabledIn pluginConfigs k b) := by
  induction bindings generalizing g with
  | nil => simp [hg]
  | cons b rest ih =>
    simp only [List.foldl_cons]
    obtain ⟨hinv, hget⟩ := foldl_appendGroup b
      (enabledPluginKeys (pluginProvider.GetPlugins (pluginConfigs.get b))) g hg
    obtain ⟨h1, h2⟩ := ih (fun b' hb' => hwf b' (List.mem_cons_of_mem _ hb')) _ hinv
    refine ⟨h1, fun k => ?_⟩
    rw [h2 k, hget k, count_enabledPluginKeys _ (hwf b (List.mem_cons_self _ _)) k,
      List.filter_cons]
    cases hl : (pluginProvider.GetPlugins (pluginConfigs.get b)).get? k with
    | none => simp [enabledIn, hl]
    | some p =>
      cases hen : p.Enabled <;> simp [enabledIn, hl, hen]

theorem rbacGroups_spec {P : Type} [Inhabited P] [pluginProvider P]
    (pluginConfigs : GoMap P) (bindings : List String)
    (hwf : ∀ b ∈ bindings, (pluginProvider.GetPlugins (pluginConfigs.get b)).WF) :
    GroupsInv (rbacGroups pluginConfigs bindings)
    ∧ ∀ k, groupOf (rbacGroups pluginConfigs bindings) k
        = bindings.filter (fun b => enabledIn pluginConfigs k b) := by
  have h := rbacGroups_aux pluginConfigs bindings hwf []
    ⟨by simp [GoMap.WF, GoMap.keys], by simp⟩
  refine ⟨h.1, fun k => ?_⟩
  have := h.2 k
  simpa [rbacGroups, groupOf, GoMap.get?] using this

theorem mem_groups_iff (g : GoMap (List String)) (hg : GroupsInv g) (k : String)
    (occ : List String) : (k, occ) ∈ g ↔ occ ≠ [] ∧ groupOf g k = occ := by
  rw [← GoMap.get?_eq_some_iff g hg.1]
  constructor
  · intro h
    refine ⟨?_, by simp [groupOf, h]⟩
    exact hg.2 (k, occ) ((GoMap.get?_eq_some_iff g hg.1 k occ).1 h)
  · rintro ⟨hne, h⟩
    cases hl : g.get? k with
    | none =>
      simp only [groupOf, hl, Option.getD_none] at h
      exact absurd h.symm hne
    | some o => simp [groupOf, hl] at h; simp [h]

theorem flatMap_unique_key {V β : Type} (g : GoMap V) (hwf : g.WF) (k : String) (v : V)
    (hmem : (k, v) ∈ g) (f : String × V → List β)
    (hother : ∀ e ∈ g, e.1 ≠ k → f e = []) : g.flatMap f = f (k, v) := by
  induction g with
  | nil => simp at hmem
  | cons e rest ih =>
    have hnd : e.1 ∉ GoMap.keys rest ∧ GoMap.WF rest := by
      simpa [GoMap.WF, GoMap.keys] using hwf
    rw [List.flatMap_cons]
    rcases List.mem_cons.1 hmem with heq | hin
    · subst heq
      have hrest : rest.flatMap f = [] := by
        rw [List.flatMap_eq_nil_iff]
        intro e he
        apply hother e (List.mem_cons_of_mem _ he)
        intro hk
        have hmemk : e.1 ∈ GoMap.keys rest := List.mem_map_of_mem Prod.fst he
        rw [hk] at hmemk
        exact hnd.1 hmemk
      rw [hrest, List.append_nil]
    · have hne : e.1 ≠ k := by
        intro hk
        have hmemk : (k, v).1 ∈ GoMap.keys rest := List.mem_map_of_mem Prod.fst hin
        rw [← hk] at hmemk
        exact hnd.1 hmemk
      rw [hother e (List.mem_cons_self _ _) hne, List.nil_append]
      exact ih hnd.2 hin (fun e he => hother e (List.mem_cons_of_mem _ he))

theorem enabledIn_iff {P : Type} [Inhabited P] [pluginProvider P]
    (pluginConfigs : GoMap P) (k b : String) :
    enabledIn pluginConfigs k b = true ↔
      ∃ p, (pluginProvider.GetPlugins (pluginConfigs.get b)).get? k = some p
        ∧ p.Enabled = true := by
  unfold enabledIn
  cases (pluginProvider.GetPlugins (pluginConfigs.get b)).get? k <;> simp

/-- A group whose members all hold the plugin raises nothing exactly when the policies of
the plugin agree between any two members. -/
theorem compareGroup_eq_nil_iff {P : Type} [Inhabited P] [pluginProvider P]
    (pluginConfigs : GoMap P) (k : String) (occ : List String)
    (hall : ∀ b ∈ occ, enabledIn pluginConfigs k b = true) :
    compareGroup pluginConfigs k occ = [] ↔
      ∀ b1 ∈ occ, ∀ b2 ∈ occ, ∀ p1 p2,
        (pluginProvider.GetPlugins (pluginConfigs.get b1)).get? k = some p1 →
        (pluginProvider.GetPlugins (pluginConfigs.get b2)).get? k = some p2 →
        p1.Context.RBAC = p2.Context.RBAC := by
  match occ, hall with
  | [], _ => simp [compareGroup]
  | [b], _ =>
    simp only [compareGroup, List.length_singleton, Nat.one_lt_ofNat, if_true,
      List.mem_singleton, true_iff]
    intro b1 hb1 b2 hb2 p1 p2 h1 h2
    subst hb1 hb2
    rw [h1] at h2
    cases h2; rfl
  | b :: n :: rest, hall =>
    obtain ⟨c, hc, -⟩ := (enabledIn_iff pluginConfigs k b).1 (hall b (List.mem_cons_self _ _))
    have hlen : ¬ (b :: n :: rest).length < 2 := by simp
    simp only [compareGroup, hlen, if_false, hc, List.flatMap_eq_nil_iff]
    constructor
    · intro h
      have key : ∀ x ∈ b :: n :: rest, ∀ p,
          (pluginProvider.GetPlugins (pluginConfigs.get x)).get? k = some p →
          c.Context.RBAC = p.Context.RBAC := by
        intro x hx p hp
        rcases List.mem_cons.1 hx with rfl | hx
        · rw [hc] at hp; cases hp; rfl
        · have := h x hx
          rw [hp] at this
          by_contra hne
          simp [hne] at this
      intro b1 hb1 b2 hb2 p1 p2 h1 h2
      rw [← key b1 hb1 p1 h1, ← key b2 hb2 p2 h2]
    · intro h x hx
      obtain ⟨p, hp, -⟩ :=
        (enabledIn_iff pluginConfigs k x).1 (hall x (List.mem_cons_of_mem _ hx))
      rw [hp]
      have := h b (List.mem_cons_self _ _) x (List.mem_cons_of_mem _ hx) c p hc hp
      simp [this]

/-! ## Binding resolution -/

/-- The `invalid_binding` part of a binding validator's report, for a map `m` named `param`:
none is raised exactly when every name of the list is a key, and each one raised names a
listed name that is missing, with the map's name as parameter. -/
theorem binding_shape {V : Type} (m : GoMap V) (param : String) (bindings : List String)
    (out : List Violation)
    (hout : out.filter (fun v => decide (v.tag = invalidBindingTag))
      = missingReports m param bindings) :
    ((∀ v ∈ out, v.tag ≠ invalidBindingTag) ↔ ∀ name ∈ bindings, name ∈ m.keys)
    ∧ (∀ v ∈ out, v.tag = invalidBindingTag →
        v.fieldName ∈ bindings ∧ v.fieldName ∉ m.keys ∧ v.param = param) := by
  have hmem : ∀ v, (v ∈ out ∧ v.tag = invalidBindingTag) ↔ v ∈ missingReports m param bindings := by
    intro v
    rw [← hout, List.mem_filter]
    simp
  refine ⟨⟨?_, ?_⟩, ?_⟩
  · intro h name hn
    by_contra habs
    have hv : ReportError name name invalidBindingTag param ∈ missingReports m param bindings :=
      (mem_missingReports m param bindings _).2 ⟨name, hn, habs, rfl⟩
    exact h _ ((hmem _).2 hv).1 rfl
  · intro h v hv htag
    obtain ⟨name, hn, habs, -⟩ := (mem_missingReports m param bindings v).1 ((hmem v).1 ⟨hv, htag⟩)
    exact habs (h name hn)
  · intro v hv htag
    obtain ⟨name, hn, habs, rfl⟩ :=
      (mem_missingReports m param bindings v).1 ((hmem v).1 ⟨hv, htag⟩)
    exact ⟨hn, habs, rfl⟩

/-- C1. Binding resolution: when `validateBoundPlugins` raises no `invalid_binding`
violation of its own, `validateSourceBindings` (resp. `validateExecutorBindings`) raises no
`invalid_binding` violation if and only if every name of the binding list is a key of
`Config.Sources` (resp. `Config.Executors`), and every `invalid_binding` violation raised
has as field a listed name that is absent from the map and as parameter the name of the
map, "Config.Sources" (resp. "Config.Executors"). -/
theorem binding_resolution (validateBoundPlugins : List String → List Violation)
    (hvbp : ∀ ks, ∀ v ∈ validateBoundPlugins ks, v.tag ≠ invalidBindingTag)
    (sources : GoMap Sources) (executors : GoMap Executors) (bindings : List String) :
    (((∀ v ∈ validateSourceBindings validateBoundPlugins sources bindings,
          v.tag ≠ invalidBindingTag) ↔ ∀ name ∈ bindings, name ∈ sources.keys)
      ∧ (∀ v ∈ validateSourceBindings validateBoundPlugins sources bindings,
          v.tag = invalidBindingTag →
            v.fieldName ∈ bindings ∧ v.fieldName ∉ sources.keys ∧ v.param = "Config.Sources"))
    ∧ (((∀ v ∈ validateExecutorBindings validateBoundPlugins executors bindings,
          v.tag ≠ invalidBindingTag) ↔ ∀ name ∈ bindings, name ∈ executors.keys)
      ∧ (∀ v ∈ validateExecutorBindings validateBoundPlugins executors bindings,
          v.tag = invalidBindingTag →
            v.fieldName ∈ bindings ∧ v.fieldName ∉ executors.keys
              ∧ v.param = "Config.Executors")) := by
  constructor
  · apply binding_shape
    rw [validateSourceBindings_eq]
    exact filter_invalidBinding _ _ _ _ (hvbp _) _
  · apply binding_shape
    rw [validateExecutorBindings_eq]
    exact filter_invalidBinding _ _ _ _ (hvbp _) _

/-- Witness of C1: sources `s1` (defined) and `s2` (missing), executor `e1` (missing). -/
theorem binding_resolution_witness :
    (((∀ v ∈ validateSourceBindings (fun _ => []) [("s1", (⟨[]⟩ : Sources))] ["s1", "s2"],
          v.tag ≠ invalidBindingTag)
        ↔ ∀ name ∈ ["s1", "s2"], name ∈ GoMap.keys [("s1", (⟨[]⟩ : Sources))])
      ∧ (∀ v ∈ validateSourceBindings (fun _ => []) [("s1", (⟨[]⟩ : Sources))] ["s1", "s2"],
          v.tag = invalidBindingTag →
            v.fieldName ∈ ["s1", "s2"] ∧ v.fieldName ∉ GoMap.keys [("s1", (⟨[]⟩ : Sources))]
              ∧ v.param = "Config.Sources"))
    ∧ (((∀ v ∈ validateExecutorBindings (fun _ => []) ([] : GoMap Executors) ["s1", "s2"],
          v.tag ≠ invalidBindingTag)
        ↔ ∀ name ∈ ["s1", "s2"], name ∈ GoMap.keys ([] : GoMap Executors))
      ∧ (∀ v ∈ validateExecutorBindings (fun _ => []) ([] : GoMap Executors) ["s1", "s2"],
          v.tag = invalidBindingTag →
            v.fieldName ∈ ["s1", "s2"] ∧ v.fieldName ∉ GoMap.keys ([] : GoMap Executors)
              ∧ v.param = "Config.Executors")) :=
  binding_resolution (fun _ => []) (by simp) [("s1", ⟨[]⟩)] [] ["s1", "s2"]

/-- C2, refuted as stated: the list `["x", "x"]` against an empty `Config.Sources` has one
distinct missing name, and `validateSourceBindings` raises two `invalid_binding`
violations. -/
theorem binding_count_counterexample :
    ((validateSourceBindings (fun _ => []) [] ["x", "x"]).filter
        (fun v => decide (v.tag = invalidBindingTag))).length = 2
    ∧ ((["x", "x"].dedup).filter
        (fun name => decide (name ∉ GoMap.keys ([] : GoMap Sources)))).length = 1 := by
  decide

/-- C2, amended: when `validateBoundPlugins` raises no `invalid_binding` violation of its
own, the number of `invalid_binding` violations raised by `validateSourceBindings` (resp.
`validateExecutorBindings`) is the number of positions of the binding list that hold a name
absent from the map, one violation per occurrence of a missing name; when no name is
repeated in the list this is the number of distinct missing names. -/
theorem binding_count (validateBoundPlugins : List String → List Violation)
    (hvbp : ∀ ks, ∀ v ∈ validateBoundPlugins ks, v.tag ≠ invalidBindingTag)
    (sources : GoMap Sources) (executors : GoMap Executors) (bindings : List String) :
    ((validateSourceBindings validateBoundPlugins sources bindings).filter
        (fun v => decide (v.tag = invalidBindingTag))).length
      = (bindings.filter (fun name => decide (name ∉ sources.keys))).length
    ∧ ((validateExecutorBindings validateBoundPlugins executors bindings).filter
        (fun v => decide (v.tag = invalidBindingTag))).length
      = (bindings.filter (fun name => decide (name ∉ executors.keys))).length
    ∧ (bindings.Nodup →
        ((validateSourceBindings validateBoundPlugins sources bindings).filter
            (fun v => decide (v.tag = invalidBindingTag))).length
          = (bindings.dedup.filter (fun name => decide (name ∉ sources.keys))).length
        ∧ ((validateExecutorBindings validateBoundPlugins executors bindings).filter
            (fun v => decide (v.tag = invalidBindingTag))).length
          = (bindings.dedup.filter (fun name => decide (name ∉ executors.keys))).length) := by
  have hs : ((validateSourceBindings validateBoundPlugins sources bindings).filter
        (fun v => decide (v.tag = invalidBindingTag))).length
      = (bindings.filter (fun name => decide (name ∉ sources.keys))).length := by
    rw [validateSourceBindings_eq, filter_invalidBinding _ _ _ _ (hvbp _) _,
      length_missingReports]
  have he : ((validateExecutorBindings validateBoundPlugins executors bindings).filter
        (fun v => decide (v.tag = invalidBindingTag))).length
      = (bindings.filter (fun name => decide (name ∉ executors.keys))).length := by
    rw [validateExecutorBindings_eq, filter_invalidBinding _ _ _ _ (hvbp _) _,
      length_missingReports]
  refine ⟨hs, he, fun hnd => ?_⟩
  rw [hnd.dedup]
  exact ⟨hs, he⟩

/-- Witness of C2 (amended): the list `["x", "s1", "x"]` with `s1` defined. -/
theorem binding_count_witness :
    ((validateSourceBindings (fun _ => []) [("s1", (⟨[]⟩ : Sources))] ["x", "s1", "x"]).filter
        (fun v => decide (v.tag = invalidBindingTag))).length
      = ((["x", "s1", "x"] : List String).filter
          (fun name => decide (name ∉ GoMap.keys [("s1", (⟨[]⟩ : Sources))]))).length
    ∧ ((validateExecutorBindings (fun _ => []) ([] : GoMap Executors) ["x", "s1", "x"]).filter
        (fun v => decide (v.tag = invalidBindingTag))).length
      = ((["x", "s1", "x"] : List String).filter
          (fun name => decide (name ∉ GoMap.keys ([] : GoMap Executors)))).length
    ∧ ((["x", "s1", "x"] : List String).Nodup →
        ((validateSourceBindings (fun _ => []) [("s1", (⟨[]⟩ : Sources))]
            ["x", "s1", "x"]).filter (fun v => decide (v.tag = invalidBindingTag))).length
          = ((["x", "s1", "x"] : List String).dedup.filter
              (fun name => decide (name ∉ GoMap.keys [("s1", (⟨[]⟩ : Sources))]))).length
        ∧ ((validateExecutorBindings (fun _ => []) ([] : GoMap Executors)
            ["x", "s1", "x"]).filter (fun v => decide (v.tag = invalidBindingTag))).length
          = ((["x", "s1", "x"] : List String).dedup.filter
              (fun name => decide (name ∉ GoMap.keys ([] : GoMap Executors)))).length) :=
  binding_count (fun _ => []) (by simp) [("s1", ⟨[]⟩)] [] ["x", "s1", "x"]

/-! ## RBAC consistency -/

/-- C3. RBAC conflict for two usages: for a binding list `[b1, b2]` whose two bindings both
hold an enabled plugin with key `k` and share no other enabled plugin key,
`validatePluginRBAC` raises nothing when the two RBAC policies of `k` are structurally
equal (both nil included) and otherwise exactly one `invalid_plugin_rbac` violation, with
field `b1` and parameter `b2`. -/
theorem rbac_two_usages {P : Type} [Inhabited P] [pluginProvider P]
    (pluginConfigs : GoMap P) (b1 b2 k : String) (p1 p2 : Plugin)
    (hwf1 : (pluginProvider.GetPlugins (pluginConfigs.get b1)).WF)
    (hwf2 : (pluginProvider.GetPlugins (pluginConfigs.get b2)).WF)
    (h1 : (pluginProvider.GetPlugins (pluginConfigs.get b1)).get? k = some p1)
    (he1 : p1.Enabled = true)
    (h2 : (pluginProvider.GetPlugins (pluginConfigs.get b2)).get? k = some p2)
    (he2 : p2.Enabled = true)
    (hother : ∀ k', k' ≠ k →
      ¬ (enabledIn pluginConfigs k' b1 = true ∧ enabledIn pluginConfigs k' b2 = true)) :
    validatePluginRBAC pluginConfigs [b1, b2]
      = if p1.Context.RBAC = p2.Context.RBAC then []
        else [ReportError b1 b1 invalidPluginRBACTag b2] := by
  have hwf : ∀ b ∈ [b1, b2], (pluginProvider.GetPlugins (pluginConfigs.get b)).WF := by
    intro b hb
    simp only [List.mem_cons, List.mem_singleton, List.not_mem_nil, or_false] at hb
    rcases hb with rfl | rfl
    · exact hwf1
    · exact hwf2
  obtain ⟨hinv, hget⟩ := rbacGroups_spec pluginConfigs [b1, b2] hwf
  have hen1 : enabledIn pluginConfigs k b1 = true :=
    (enabledIn_iff pluginConfigs k b1).2 ⟨p1, h1, he1⟩
  have hen2 : enabledIn pluginConfigs k b2 = true :=
    (enabledIn_iff pluginConfigs k b2).2 ⟨p2, h2, he2⟩
  have hk : groupOf (rbacGroups pluginConfigs [b1, b2]) k = [b1, b2] := by
    rw [hget]; simp [List.filter, hen1, hen2]
  have hmem : (k, [b1, b2]) ∈ rbacGroups pluginConfigs [b1, b2] :=
    (mem_groups_iff _ hinv k _).2 ⟨by simp, hk⟩
  unfold validatePluginRBAC
  rw [flatMap_unique_key _ hinv.1 k [b1, b2] hmem]
  · simp only [compareGroup, List.length_cons, List.length_nil, h1, h2]
    by_cases heq : p1.Context.RBAC = p2.Context.RBAC
    · simp [heq, h2]
    · simp [heq, h2]
  · rintro ⟨k', occ⟩ he hne
    have hocc := ((mem_groups_iff _ hinv k' occ).1 he).2
    rw [hget] at hocc
    have hlen : occ.length < 2 := by
      rw [← hocc]
      have hno := hother k' hne
      cases ha : enabledIn pluginConfigs k' b1 <;> cases hb : enabledIn pluginConfigs k' b2
        <;> simp [List.filter, ha, hb] at hno ⊢
    simp [compareGroup, hlen]

/-- Witness of C3: bindings `b1` and `b2` share the enabled plugin `k`, with no policy in
`b1` and a static policy in `b2`; `b2` also holds an enabled plugin `j`. -/
theorem rbac_two_usages_witness :
    validatePluginRBAC
        [("b1", (⟨[("k", ⟨true, ⟨none⟩⟩)]⟩ : Sources)),
         ("b2", ⟨[("k", ⟨true, ⟨some ⟨⟨"Static", "dev"⟩⟩⟩⟩), ("j", ⟨true, ⟨none⟩⟩)]⟩)]
        ["b1", "b2"]
      = [ReportError "b1" "b1" invalidPluginRBACTag "b2"] :=
  rbac_two_usages
    [("b1", (⟨[("k", ⟨true, ⟨none⟩⟩)]⟩ : Sources)),
     ("b2", ⟨[("k", ⟨true, ⟨some ⟨⟨"Static", "dev"⟩⟩⟩⟩), ("j", ⟨true, ⟨none⟩⟩)]⟩)]
    "b1" "b2" "k" ⟨true, ⟨none⟩⟩ ⟨true, ⟨some ⟨⟨"Static", "dev"⟩⟩⟩⟩
    (by decide) (by decide) (by decide) rfl (by decide) rfl
    (by
      intro k' hk' h
      have hb : (k' == "k") = false := by simpa using hk'
      have h1 := h.1
      simp [enabledIn, GoMap.get, GoMap.get?, List.lookup, pluginProvider.GetPlugins, hb] at h1)

/-- C4. RBAC consistency in general: for a binding list of any length (every plugin map
reached being a map), `validatePluginRBAC` raises no `invalid_plugin_rbac` violation if and
only if, for every plugin key, any two enabled plugins with that key held by listed
bindings have structurally equal RBAC policies. -/
theorem rbac_consistency {P : Type} [Inhabited P] [pluginProvider P]
    (pluginConfigs : GoMap P) (bindings : List String)
    (hwf : ∀ b ∈ bindings, (pluginProvider.GetPlugins (pluginConfigs.get b)).WF) :
    (∀ v ∈ validatePluginRBAC pluginConfigs bindings, v.tag ≠ invalidPluginRBACTag) ↔
      ∀ k, ∀ b1 ∈ bindings, ∀ b2 ∈ bindings, ∀ p1 p2,
        (pluginProvider.GetPlugins (pluginConfigs.get b1)).get? k = some p1 →
        p1.Enabled = true →
        (pluginProvider.GetPlugins (pluginConfigs.get b2)).get? k = some p2 →
        p2.Enabled = true →
        p1.Context.RBAC = p2.Context.RBAC := by
  obtain ⟨hinv, hget⟩ := rbacGroups_spec pluginConfigs bindings hwf
  have hnil : (∀ v ∈ validatePluginRBAC pluginConfigs bindings, v.tag ≠ invalidPluginRBACTag)
      ↔ validatePluginRBAC pluginConfigs bindings = [] := by
    constructor
    · intro h
      rw [List.eq_nil_iff_forall_not_mem]
      intro v hv
      exact h v hv (validatePluginRBAC_tag _ _ v hv)
    · intro h v hv
      rw [h] at hv
      simp at hv
  rw [hnil]
  unfold validatePluginRBAC
  rw [List.flatMap_eq_nil_iff]
  have hall : ∀ k, ∀ b ∈ bindings.filter (fun b => enabledIn pluginConfigs k b),
      enabledIn pluginConfigs k b = true := by
    intro k b hb
    exact (List.mem_filter.1 hb).2
  constructor
  · intro h k b1 hb1 b2 hb2 p1 p2 h1 he1 h2 he2
    have hm1 : b1 ∈ bindings.filter (fun b => enabledIn pluginConfigs k b) :=
      List.mem_filter.2 ⟨hb1, (enabledIn_iff pluginConfigs k b1).2 ⟨p1, h1, he1⟩⟩
    have hm2 : b2 ∈ bindings.filter (fun b => enabledIn pluginConfigs k b) :=
      List.mem_filter.2 ⟨hb2, (enabledIn_iff pluginConfigs k b2).2 ⟨p2, h2, he2⟩⟩
    have hmem : (k, bindings.filter (fun b => enabledIn pluginConfigs k b))
        ∈ rbacGroups pluginConfigs bindings :=
      (mem_groups_iff _ hinv k _).2 ⟨List.ne_nil_of_mem hm1, hget k⟩
    exact (compareGroup_eq_nil_iff pluginConfigs k _ (hall k)).1 (h _ hmem)
      b1 hm1 b2 hm2 p1 p2 h1 h2
  · rintro h ⟨k, occ⟩ he
    have hocc := ((mem_groups_iff _ hinv k occ).1 he).2
    rw [hget] at hocc
    subst hocc
    apply (compareGroup_eq_nil_iff pluginConfigs k _ (hall k)).2
    intro b1 hb1 b2 hb2 p1 p2 h1 h2
    obtain ⟨q1, hq1, hen1⟩ := (enabledIn_iff pluginConfigs k b1).1 (List.mem_filter.1 hb1).2
    obtain ⟨q2, hq2, hen2⟩ := (enabledIn_iff pluginConfigs k b2).1 (List.mem_filter.1 hb2).2
    rw [h1] at hq1; cases hq1
    rw [h2] at hq2; cases hq2
    exact h k b1 (List.mem_filter.1 hb1).1 b2 (List.mem_filter.1 hb2).1 p1 p2 h1 hen1 h2 hen2

/-- Witness of C4: three bindings holding the enabled plugin `k` with the same policy;
`b3` holds it a second time under another key, disabled, with another policy. -/
theorem rbac_consistency_witness :
    (∀ v ∈ validatePluginRBAC
        [("b1", (⟨[("k", ⟨true, ⟨some ⟨⟨"Static", "dev"⟩⟩⟩⟩)]⟩ : Executors)),
         ("b2", ⟨[("k", ⟨true, ⟨some ⟨⟨"Static", "dev"⟩⟩⟩⟩)]⟩),
         ("b3", ⟨[("j", ⟨false, ⟨none⟩⟩), ("k", ⟨true, ⟨some ⟨⟨"Static", "dev"⟩⟩⟩⟩)]⟩)]
        ["b1", "b2", "b3"], v.tag ≠ invalidPluginRBACTag) ↔
      ∀ k, ∀ b1 ∈ ["b1", "b2", "b3"], ∀ b2 ∈ ["b1", "b2", "b3"], ∀ p1 p2,
        (pluginProvider.GetPlugins (GoMap.get
          [("b1", (⟨[("k", ⟨true, ⟨some ⟨⟨"Static", "dev"⟩⟩⟩⟩)]⟩ : Executors)),
           ("b2", ⟨[("k", ⟨true, ⟨some ⟨⟨"Static", "dev"⟩⟩⟩⟩)]⟩),
           ("b3", ⟨[("j", ⟨false, ⟨none⟩⟩), ("k", ⟨true, ⟨some ⟨⟨"Static", "dev"⟩⟩⟩⟩)]⟩)]
          b1)).get? k = some p1 →
        p1.Enabled = true →
        (pluginProvider.GetPlugins (GoMap.get
          [("b1", (⟨[("k", ⟨true, ⟨some ⟨⟨"Static", "dev"⟩⟩⟩⟩)]⟩ : Executors)),
           ("b2", ⟨[("k", ⟨true, ⟨some ⟨⟨"Static", "dev"⟩⟩⟩⟩)]⟩),
           ("b3", ⟨[("j", ⟨false, ⟨none⟩⟩), ("k", ⟨true, ⟨some ⟨⟨"Static", "dev"⟩⟩⟩⟩)]⟩)]
          b2)).get? k = some p2 →
        p2.Enabled = true →
        p1.Context.RBAC = p2.Context.RBAC :=
  rbac_consistency
    [("b1", (⟨[("k", ⟨true, ⟨some ⟨⟨"Static", "dev"⟩⟩⟩⟩)]⟩ : Executors)),
     ("b2", ⟨[("k", ⟨true, ⟨some ⟨⟨"Static", "dev"⟩⟩⟩⟩)]⟩),
     ("b3", ⟨[("j", ⟨false, ⟨none⟩⟩), ("k", ⟨true, ⟨some ⟨⟨"Static", "dev"⟩⟩⟩⟩)]⟩)]
    ["b1", "b2", "b3"] (by decide)

/-! ## Action RBAC restriction -/

theorem GoMap.mem_of_get?_eq_some {V : Type} (m : GoMap V) (k : String) (v : V)
    (h : m.get? k = some v) : (k, v) ∈ m := by
  induction m with
  | nil => simp [GoMap.get?] at h
  | cons e rest ih =>
    obtain ⟨k', v'⟩ := e
    simp only [GoMap.get?] at ih h
    by_cases hk : k = k'
    · subst hk
      simp only [List.lookup, beq_self_eq_true, Option.some.injEq] at h
      subst h
      exact List.mem_cons_self _ _
    · have h' : (k == k') = false := by simpa using hk
      simp only [List.lookup, h'] at h
      exact List.mem_cons_of_mem _ (ih h)

theorem offends_iff (p : Plugin) :
    offends p = true ↔
      p.Enabled = true
        ∧ ∃ r, p.Context.RBAC = some r ∧ r.Group.Typ = ChannelNamePolicySubjectType := by
  unfold offends
  cases p.Context.RBAC <;> simp

theorem actionExecutorPlugin_eq (executor pluginKey : String) (plugin : Plugin) :
    actionExecutorPlugin executor pluginKey plugin
      = if offends plugin then [ReportError pluginKey executor invalidActionRBACTag ""]
        else [] := by
  unfold actionExecutorPlugin offends
  cases plugin.Enabled <;> cases plugin.Context.RBAC <;> simp

theorem mem_validateActionExecutors (executors : GoMap Executors) (bindings : List String)
    (v : Violation) :
    v ∈ validateActionExecutors executors bindings ↔
      ∃ executor ∈ bindings, ∃ k p, (k, p) ∈ (executors.get executor).Plugins
        ∧ offends p = true ∧ v = ReportError k executor invalidActionRBACTag "" := by
  simp only [validateActionExecutors, List.mem_flatMap, actionExecutorPlugin_eq]
  constructor
  · rintro ⟨executor, hb, ⟨k, p⟩, hin, hv⟩
    by_cases ho : offends p = true
    · simp only [ho, if_true, List.mem_singleton] at hv
      exact ⟨executor, hb, k, p, hin, ho, hv⟩
    · simp [ho] at hv
  · rintro ⟨executor, hb, k, p, hin, ho, hv⟩
    exact ⟨executor, hb, (k, p), hin, by simp [ho, hv]⟩

theorem count_actionPlugins (executor : String) (ps : Plugins) (hwf : ps.WF)
    (k e : String) :
    (ps.flatMap (fun x => actionExecutorPlugin executor x.1 x.2)).count
        (ReportError k e invalidActionRBACTag "")
      = if executor = e ∧ ∃ p, ps.get? k = some p ∧ offends p = true then 1 else 0 := by
  induction ps with
  | nil => simp [GoMap.get?]
  | cons x rest ih =>
    obtain ⟨k0, p0⟩ := x
    have hnd : k0 ∉ GoMap.keys rest ∧ GoMap.WF rest := by
      simpa [GoMap.WF, GoMap.keys] using hwf
    rw [List.flatMap_cons, List.count_append, ih hnd.2, actionExecutorPlugin_eq]
    by_cases hk : k = k0
    · subst hk
      have hnone : List.lookup k rest = none := (GoMap.get?_eq_none_iff rest k).2 hnd.1
      by_cases he : executor = e
      · subst he
        by_cases ho : offends p0 = true
        · simp [GoMap.get?, List.lookup, ho, hnone]
        · simp [GoMap.get?, List.lookup, ho, hnone]
      · by_cases ho : offends p0 = true
        · have hz : List.count (ReportError k e invalidActionRBACTag "")
              [ReportError k executor invalidActionRBACTag ""] = 0 :=
            List.count_eq_zero.2 (by simp [ReportError, he, Ne.symm he])
          simp [GoMap.get?, List.lookup, ho, hnone, he, hz]
        · simp [GoMap.get?, List.lookup, ho, hnone, he]
    · have hb : (k == k0) = false := by simpa using hk
      have hk' : ¬ k0 = k := fun h => hk h.symm
      by_cases ho : offends p0 = true
      · have hz : List.count (ReportError k e invalidActionRBACTag "")
            [ReportError k0 executor invalidActionRBACTag ""] = 0 :=
          List.count_eq_zero.2 (by simp [ReportError, hk, hk'])
        simp [GoMap.get?, List.lookup, ho, hb, hz]
      · simp [GoMap.get?, List.lookup, ho, hb]

theorem count_validateActionExecutors (executors : GoMap Executors)
    (bindings : List String) (hwf : ∀ b ∈ bindings, (executors.get b).Plugins.WF)
    (k e : String) :
    (validateActionExecutors executors bindings).count
        (ReportError k e invalidActionRBACTag "")
      = if (∃ p, (executors.get e).Plugins.get? k = some p ∧ offends p = true)
        then bindings.count e else 0 := by
  induction bindings with
  | nil => simp [validateActionExecutors]
  | cons b rest ih =>
    have ih' := ih (fun b' hb' => hwf b' (List.mem_cons_of_mem _ hb'))
    simp only [validateActionExecutors, List.flatMap_cons, List.count_append] at ih' ⊢
    rw [ih', count_actionPlugins b _ (hwf b (List.mem_cons_self _ _)) k e, List.count_cons]
    by_cases hbe : b = e
    · subst hbe
      by_cases hc : ∃ p, (executors.get b).Plugins.get? k = some p ∧ offends p = true
      · simp only [hc, and_self, if_true, beq_self_eq_true]; omega
      · simp [hc]
    · have hbe' : (b == e) = false := by simpa using hbe
      simp [hbe, hbe']

theorem GoMap.get_of_get? {V : Type} [Inhabited V] (m : GoMap V) (k : String) (v : V)
    (h : m.get? k = some v) : m.get k = v := by
  simp [GoMap.get, h]

/-- C5, refuted as stated: the executor `e` of the binding list holds the plugin `p` whose
RBAC policy has subject type "ChannelName", the plugin is disabled, and
`validateActionExecutors` raises nothing. -/
theorem action_rbac_counterexample :
    "e" ∈ ["e"]
    ∧ GoMap.get? [("e", (⟨[("p", ⟨false, ⟨some ⟨⟨"ChannelName", "dev"⟩⟩⟩⟩)]⟩ : Executors))] "e"
        = some ⟨[("p", ⟨false, ⟨some ⟨⟨"ChannelName", "dev"⟩⟩⟩⟩)]⟩
    ∧ GoMap.get? ([("p", ⟨false, ⟨some ⟨⟨"ChannelName", "dev"⟩⟩⟩⟩)] : Plugins) "p"
        = some ⟨false, ⟨some ⟨⟨ChannelNamePolicySubjectType, "dev"⟩⟩⟩⟩
    ∧ validateActionExecutors
        [("e", (⟨[("p", ⟨false, ⟨some ⟨⟨"ChannelName", "dev"⟩⟩⟩⟩)]⟩ : Executors))] ["e"] = [] := by
  decide

/-- C5, amended: for every executor map and every Action executor binding list that names an
executor holding an enabled plugin whose RBAC policy has Group subject type "ChannelName",
`validateActionExecutors` raises an `invalid_action_tag` violation naming that plugin key,
whatever the other fields of the policy are. -/
theorem action_rbac_enabled (executors : GoMap Executors) (bindings : List String)
    (executor k : String) (ex : Executors) (plugin : Plugin) (r : PolicyRule)
    (hb : executor ∈ bindings) (hex : executors.get? executor = some ex)
    (hp : ex.Plugins.get? k = some plugin) (hen : plugin.Enabled = true)
    (hr : plugin.Context.RBAC = some r)
    (ht : r.Group.Typ = ChannelNamePolicySubjectType) :
    ReportError k executor invalidActionRBACTag ""
      ∈ validateActionExecutors executors bindings := by
  rw [mem_validateActionExecutors]
  refine ⟨executor, hb, k, plugin, ?_, (offends_iff plugin).2 ⟨hen, r, hr, ht⟩, rfl⟩
  rw [GoMap.get_of_get? executors executor ex hex]
  exact GoMap.mem_of_get?_eq_some _ _ _ hp

/-- Witness of C5 (amended): the same plugin as in the counterexample, enabled. -/
theorem action_rbac_enabled_witness :
    ReportError "p" "e" invalidActionRBACTag ""
      ∈ validateActionExecutors
        [("e", (⟨[("p", ⟨true, ⟨some ⟨⟨"ChannelName", "dev"⟩⟩⟩⟩)]⟩ : Executors))] ["e"] :=
  action_rbac_enabled
    [("e", (⟨[("p", ⟨true, ⟨some ⟨⟨"ChannelName", "dev"⟩⟩⟩⟩)]⟩ : Executors))] ["e"]
    "e" "p" ⟨[("p", ⟨true, ⟨some ⟨⟨"ChannelName", "dev"⟩⟩⟩⟩)]⟩
    ⟨true, ⟨some ⟨⟨"ChannelName", "dev"⟩⟩⟩⟩ ⟨⟨"ChannelName", "dev"⟩⟩
    (by decide) (by decide) (by decide) rfl rfl (by decide)

/-- C6. Action RBAC restriction, exact characterisation (every plugin map reached being a
map). Every violation raised by `validateActionExecutors` has tag `invalid_action_tag`,
names a plugin key and a listed executor such that the plugin is enabled, has an RBAC
policy and the policy's Group subject type is "ChannelName"; conversely each such pair
(executor, plugin key) is reported once per occurrence of the executor name in the list.
Hence nothing is raised for a plugin without RBAC policy, nor for a name missing from the
map. -/
theorem action_rbac_exact (executors : GoMap Executors) (bindings : List String)
    (hwf : ∀ b ∈ bindings, (executors.get b).Plugins.WF) :
    (∀ v ∈ validateActionExecutors executors bindings,
      v.tag = invalidActionRBACTag ∧ v.param = "" ∧ v.structFieldName ∈ bindings
      ∧ ∃ ex plugin r, executors.get? v.structFieldName = some ex
          ∧ ex.Plugins.get? v.fieldName = some plugin ∧ plugin.Enabled = true
          ∧ plugin.Context.RBAC = some r ∧ r.Group.Typ = ChannelNamePolicySubjectType)
    ∧ (∀ k e ex plugin r, executors.get? e = some ex → ex.Plugins.get? k = some plugin →
        plugin.Enabled = true → plugin.Context.RBAC = some r →
        r.Group.Typ = ChannelNamePolicySubjectType →
        (validateActionExecutors executors bindings).count
          (ReportError k e invalidActionRBACTag "") = bindings.count e)
    ∧ (∀ k e ex plugin, executors.get? e = some ex → ex.Plugins.get? k = some plugin →
        plugin.Context.RBAC = none →
        ∀ v ∈ validateActionExecutors executors bindings,
          ¬ (v.fieldName = k ∧ v.structFieldName = e))
    ∧ (∀ e, executors.get? e = none →
        ∀ v ∈ validateActionExecutors executors bindings, v.structFieldName ≠ e) := by
  have part1 : ∀ v ∈ validateActionExecutors executors bindings,
      v.tag = invalidActionRBACTag ∧ v.param = "" ∧ v.structFieldName ∈ bindings
      ∧ ∃ ex plugin r, executors.get? v.structFieldName = some ex
          ∧ ex.Plugins.get? v.fieldName = some plugin ∧ plugin.Enabled = true
          ∧ plugin.Context.RBAC = some r ∧ r.Group.Typ = ChannelNamePolicySubjectType := by
    intro v hv
    obtain ⟨executor, hb, k, p, hin, ho, rfl⟩ :=
      (mem_validateActionExecutors executors bindings v).1 hv
    refine ⟨rfl, rfl, hb, ?_⟩
    obtain ⟨hen, r, hr, ht⟩ := (offends_iff p).1 ho
    cases hget : executors.get? executor with
    | none =>
      have hz : executors.get executor = default := by simp [GoMap.get, hget]
      rw [hz] at hin
      exact absurd hin (List.not_mem_nil _)
    | some ex =>
      have hz := GoMap.get_of_get? executors executor ex hget
      have hw := hwf executor hb
      rw [hz] at hin hw
      exact ⟨ex, p, r, hget, (GoMap.get?_eq_some_iff _ hw k p).2 hin, hen, hr, ht⟩
  refine ⟨part1, ?_, ?_, ?_⟩
  · intro k e ex plugin r hex hp hen hr ht
    rw [count_validateActionExecutors executors bindings hwf k e, if_pos]
    rw [GoMap.get_of_get? executors e ex hex]
    exact ⟨plugin, hp, (offends_iff plugin).2 ⟨hen, r, hr, ht⟩⟩
  · rintro k e ex plugin hex hp hnone v hv ⟨hk, he⟩
    obtain ⟨-, -, -, ex', plugin', r, hex', hp', -, hr, -⟩ := part1 v hv
    rw [he, hex] at hex'
    cases hex'
    rw [hk, hp] at hp'
    cases hp'
    rw [hnone] at hr
    cases hr
  · intro e hnone v hv he
    obtain ⟨-, -, -, ex', -, -, hex', -⟩ := part1 v hv
    rw [he, hnone] at hex'
    cases hex'

/-- Witness of C6: the executor `e` is listed twice and holds an offending plugin `p`, a
plugin `q` without policy and a disabled plugin `d`; the name `gone` is not in the map. -/
theorem action_rbac_exact_witness :
    (validateActionExecutors
        [("e", (⟨[("p", ⟨true, ⟨some ⟨⟨"ChannelName", "dev"⟩⟩⟩⟩), ("q", ⟨true, ⟨none⟩⟩),
                  ("d", ⟨false, ⟨some ⟨⟨"ChannelName", "dev"⟩⟩⟩⟩)]⟩ : Executors))]
        ["e", "gone", "e"]).count (ReportError "p" "e" invalidActionRBACTag "")
      = (["e", "gone", "e"] : List String).count "e" :=
  (action_rbac_exact
    [("e", (⟨[("p", ⟨true, ⟨some ⟨⟨"ChannelName", "dev"⟩⟩⟩⟩), ("q", ⟨true, ⟨none⟩⟩),
              ("d", ⟨false, ⟨some ⟨⟨"ChannelName", "dev"⟩⟩⟩⟩)]⟩ : Executors))]
    ["e", "gone", "e"] (by decide)).2.1 "p" "e"
    ⟨[("p", ⟨true, ⟨some ⟨⟨"ChannelName", "dev"⟩⟩⟩⟩), ("q", ⟨true, ⟨none⟩⟩),
      ("d", ⟨false, ⟨some ⟨⟨"ChannelName", "dev"⟩⟩⟩⟩)]⟩
    ⟨true, ⟨some ⟨⟨"ChannelName", "dev"⟩⟩⟩⟩ ⟨⟨"ChannelName", "dev"⟩⟩
    (by decide) (by decide) rfl rfl (by decide)

/-! ## Lemmas on the channel patterns -/

theorem uint32_le_iff (a b : UInt32) : a ≤ b ↔ a.toNat ≤ b.toNat := by
  rw [UInt32.le_def, BitVec.le_def]
  rfl

theorem range_lower (c : Char) : (ClassItem.range 'a' 'z').has c = c.isLower := by
  have h1 : decide (97 ≤ c.val) = decide ((97 : UInt32).toNat ≤ c.val.toNat) :=
    decide_eq_decide.2 (uint32_le_iff _ _)
  have h2 : decide (c.val ≤ 122) = decide (c.val.toNat ≤ (122 : UInt32).toNat) :=
    decide_eq_decide.2 (uint32_le_iff _ _)
  simp only [ClassItem.has, Char.isLower, ge_iff_le, h1, h2]
  rfl

theorem range_digit (c : Char) : (ClassItem.range '0' '9').has c = c.isDigit := by
  have h1 : decide (48 ≤ c.val) = decide ((48 : UInt32).toNat ≤ c.val.toNat) :=
    decide_eq_decide.2 (uint32_le_iff _ _)
  have h2 : decide (c.val ≤ 57) = decide (c.val.toNat ≤ (57 : UInt32).toNat) :=
    decide_eq_decide.2 (uint32_le_iff _ _)
  simp only [ClassItem.has, Char.isDigit, ge_iff_le, h1, h2]
  rfl

theorem range_single (x c : Char) : (ClassItem.range x x).has c = decide (c = x) := by
  simp only [ClassItem.has]
  by_cases h : c = x
  · subst h; simp
  · have hne : c.toNat ≠ x.toNat := by
      intro e
      apply h
      rw [← Char.ofNat_toNat c, e, Char.ofNat_toNat]
    have : ¬ (x.toNat ≤ c.toNat ∧ c.toNat ≤ x.toNat) := fun hh => hne (by omega)
    simp only [h, decide_False]
    rw [← Bool.decide_and]
    exact decide_eq_false this

/-- The anchored repetition accepts the rest of the input exactly when every character is
in the class and the total count is within the bounds. -/
theorem Regexp.matchFrom_iff (re : Regexp) (n : Nat) (cs : List Char) :
    re.matchFrom n cs = true ↔
      (∀ c ∈ cs, re.classHas c = true) ∧ re.min ≤ n + cs.length
        ∧ ∀ m, re.max = some m → cs ≠ [] → n + cs.length ≤ m := by
  induction cs generalizing n with
  | nil => simp [Regexp.matchFrom]
  | cons c cs ih =>
    simp only [Regexp.matchFrom, Bool.and_eq_true, ih (n + 1), List.mem_cons, forall_eq_or_imp,
      List.length_cons, ne_eq, not_false_eq_true, forall_const, reduceCtorEq]
    have hlen : n + 1 + cs.length = n + (cs.length + 1) := by omega
    rw [hlen]
    constructor
    · rintro ⟨⟨hmax, hc⟩, hall, hmin, hrest⟩
      refine ⟨⟨hc, hall⟩, hmin, fun m hm => ?_⟩
      by_cases hnil : cs = []
      · subst hnil
        rw [hm] at hmax
        simpa using hmax
      · exact hrest m hm hnil
    · rintro ⟨⟨hc, hall⟩, hmin, hrest⟩
      refine ⟨⟨?_, hc⟩, hall, hmin, fun m hm _ => hrest m hm⟩
      cases hm : re.max with
      | none => rfl
      | some m =>
        have := hrest m hm
        simp only [decide_eq_true_eq]
        omega

/-- The Slack pattern: 1 to 79 characters, each a lowercase ASCII letter, a digit, a hyphen
or an underscore. -/
theorem slackChannelNameRegex_iff (s : String) :
    slackChannelNameRegex.MatchString s = true ↔
      1 ≤ s.length ∧ s.length ≤ 79
        ∧ ∀ c ∈ s.toList, c.isLower = true ∨ c.isDigit = true ∨ c = '-' ∨ c = '_' := by
  have hclass : ∀ c, slackChannelNameRegex.classHas c = true ↔
      (c.isLower = true ∨ c.isDigit = true ∨ c = '-' ∨ c = '_') := by
    intro c
    simp [Regexp.classHas, slackChannelNameRegex, range_lower, range_digit, range_single]
  rw [Regexp.MatchString, Regexp.matchFrom_iff]
  simp only [hclass, String.length]
  constructor
  · rintro ⟨hall, hmin, hmax⟩
    have hmin' : 1 ≤ s.toList.length := by simpa [slackChannelNameRegex] using hmin
    have hne : s.toList ≠ [] := by
      intro h; rw [h] at hmin'; simp at hmin'
    have := hmax 79 rfl hne
    exact ⟨hmin', by simpa using this, hall⟩
  · rintro ⟨hmin, hmax, hall⟩
    refine ⟨hall, by simpa [slackChannelNameRegex] using hmin, fun m hm _ => ?_⟩
    simp only [slackChannelNameRegex, Option.some.injEq] at hm
    subst hm
    simpa using hmax

/-- The Discord pattern: decimal digits only, any length. -/
theorem discordChannelIDRegex_iff (s : String) :
    discordChannelIDRegex.MatchString s = true ↔ ∀ c ∈ s.toList, c.isDigit = true := by
  have hclass : ∀ c, discordChannelIDRegex.classHas c = true ↔ c.isDigit = true := by
    intro c
    simp [Regexp.classHas, discordChannelIDRegex, range_digit]
  rw [Regexp.MatchString, Regexp.matchFrom_iff]
  simp only [hclass]
  constructor
  · rintro ⟨hall, -, -⟩
    exact hall
  · intro hall
    refine ⟨hall, by simp [discordChannelIDRegex], fun m hm => ?_⟩
    simp [discordChannelIDRegex] at hm

/-! ## Lemmas on `validateChannels` -/

/-- In a map without empty identifier every channel is checked against the pattern. -/
theorem validateChannelsLoop_of_nonempty {T : Type} [Identifiable T]
    (normalize : String → String) (regex : Regexp) (shouldNormalize : Bool)
    (fieldName docsURL : String) (channels : GoMap T)
    (hne : ∀ e ∈ channels, Identifiable.Identifier e.2 ≠ "") :
    validateChannelsLoop normalize regex shouldNormalize fieldName docsURL channels
      = channels.flatMap (fun e =>
          if regex.MatchString
              (testedIdentifier normalize shouldNormalize (Identifiable.Identifier e.2)) then []
          else [ReportError (Identifiable.Identifier e.2) (e.1 ++ "." ++ fieldName)
                  invalidChannelNameTag docsURL]) := by
  induction channels with
  | nil => simp [validateChannelsLoop]
  | cons e rest ih =>
    obtain ⟨channelAlias, channel⟩ := e
    have h0 : Identifiable.Identifier channel ≠ "" := hne (channelAlias, channel)
      (List.mem_cons_self _ _)
    rw [validateChannelsLoop, if_neg h0, List.flatMap_cons,
      ih (fun e he => hne e (List.mem_cons_of_mem _ he))]
    cases hmatch : regex.MatchString
      (testedIdentifier normalize shouldNormalize (Identifiable.Identifier channel))
    · simp only [testedIdentifier] at hmatch
      simp [testedIdentifier, hmatch]
    · simp only [testedIdentifier] at hmatch
      simp [testedIdentifier, hmatch]

/-- In a map without empty identifier, the channel-format violation of a channel of the map
is raised exactly when the tested identifier fails the pattern. -/
theorem validateChannels_format_iff {T : Type} [Identifiable T]
    (normalize : String → String) (regex : Regexp) (shouldNormalize : Bool)
    (fieldName docsURL : String) (channels : GoMap T)
    (hne : ∀ e ∈ channels, Identifiable.Identifier e.2 ≠ "")
    (channelAlias : String) (channel : T) (hmem : (channelAlias, channel) ∈ channels) :
    ReportError (Identifiable.Identifier channel) (channelAlias ++ "." ++ fieldName)
        invalidChannelNameTag docsURL
      ∈ validateChannels normalize regex shouldNormalize channels fieldName docsURL
    ↔ regex.MatchString
        (testedIdentifier normalize shouldNormalize (Identifiable.Identifier channel))
      = false := by
  have hlen : channels.length ≠ 0 := by
    intro h
    rw [List.length_eq_zero] at h
    rw [h] at hmem
    simp at hmem
  simp only [validateChannels, hlen, if_false, List.nil_append,
    validateChannelsLoop_of_nonempty normalize regex shouldNormalize fieldName docsURL
      channels hne, List.mem_flatMap]
  constructor
  · rintro ⟨⟨a, ch⟩, -, hv⟩
    cases hmatch : regex.MatchString
      (testedIdentifier normalize shouldNormalize (Identifiable.Identifier ch))
    · simp only [hmatch, Bool.false_eq_true, if_false, List.mem_singleton, ReportError,
        Violation.mk.injEq, and_true] at hv
      rw [hv.1]
      exact hmatch
    · simp [hmatch] at hv
  · intro h
    exact ⟨(channelAlias, channel), hmem, by simp [h]⟩

/-! ## Channel validation -/

/-- C7, refuted as stated: an enabled Slack platform with a valid token and an empty channel
map gets no violation at all from `slackStructTokenValidator`, which never looks at
`Channels`. -/
theorem empty_channels_slack_counterexample :
    slackStructTokenValidator { Enabled := true, Channels := [], Token := "xoxb-1" } = [] := by
  decide

/-- C7, amended: for each of the four platform validators that call `validateChannels`
(SocketSlack, CloudSlack, Discord, Mattermost), when the platform is enabled and its channel
map is empty, the validator raises a `required` violation on `Channels`; the validator of
Slack, `slackStructTokenValidator`, checks the token only and raises violations on `Token`
alone. -/
theorem empty_channels_required (normalize : String → String)
    (socketSlack : SocketSlack) (cloudSlack : CloudSlack) (discord : Discord)
    (mattermost : Mattermost) (slack : Slack)
    (hs : socketSlack.Enabled = true) (hsc : socketSlack.Channels = [])
    (hc : cloudSlack.Enabled = true) (hcc : cloudSlack.Channels = [])
    (hd : discord.Enabled = true) (hdc : discord.Channels = [])
    (hm : mattermost.Enabled = true) (hmc : mattermost.Channels = []) :
    ReportError "Channels" "Channels" "required" "" ∈ socketSlackValidator normalize socketSlack
    ∧ ReportError "Channels" "Channels" "required" "" ∈ cloudSlackValidator normalize cloudSlack
    ∧ ReportError "Channels" "Channels" "required" "" ∈ discordValidator normalize discord
    ∧ ReportError "Channels" "Channels" "required" "" ∈ mattermostValidator normalize mattermost
    ∧ ∀ v ∈ slackStructTokenValidator slack, v.fieldName = "Token" := by
  refine ⟨?_, ?_, ?_, ?_, ?_⟩
  · simp [socketSlackValidator, hs, hsc, validateChannels]
  · simp [cloudSlackValidator, hc, hcc, validateChannels]
  · simp [discordValidator, hd, hdc, validateChannels]
  · simp [mattermostValidator, hm, hmc, validateChannels]
  · intro v hv
    unfold slackStructTokenValidator at hv
    split at hv
    · simp at hv
    · split at hv
      · simp only [List.mem_singleton] at hv
        subst hv; rfl
      · split at hv
        · simp only [List.mem_singleton] at hv
          subst hv; rfl
        · simp at hv

/-- Witness of C7 (amended): four enabled platforms without channels, and a Slack platform
with a token of the wrong shape. -/
theorem empty_channels_required_witness :
    ReportError "Channels" "Channels" "required" ""
      ∈ socketSlackValidator trimNormalize
          { Enabled := true, Channels := [], BotToken := "xoxb-1", AppToken := "xapp-1" }
    ∧ ReportError "Channels" "Channels" "required" ""
      ∈ cloudSlackValidator trimNormalize { Enabled := true, Channels := [] }
    ∧ ReportError "Channels" "Channels" "required" ""
      ∈ discordValidator trimNormalize { Enabled := true, Channels := [] }
    ∧ ReportError "Channels" "Channels" "required" ""
      ∈ mattermostValidator trimNormalize { Enabled := true, Channels := [] }
    ∧ ∀ v ∈ slackStructTokenValidator { Enabled := true, Channels := [], Token := "token" },
        v.fieldName = "Token" :=
  empty_channels_required trimNormalize
    { Enabled := true, Channels := [], BotToken := "xoxb-1", AppToken := "xapp-1" }
    { Enabled := true, Channels := [] } { Enabled := true, Channels := [] }
    { Enabled := true, Channels := [] } { Enabled := true, Channels := [], Token := "token" }
    rfl rfl rfl rfl rfl rfl rfl rfl

/-- C8, the code at the failing input: in a CloudSlack channel map that is visited in the
order `a`, `b`, `c`, where `a` has an empty name, `b` an empty name and `c` the name
"My Channel" (which fails the Slack grammar), `validateChannels` reports one `required`
violation for `a` and leaves the function: `b` gets no `required` violation and `c` no
channel-format violation. -/
theorem empty_identifier_stops_all :
    cloudSlackValidator trimNormalize
        { Enabled := true,
          Channels := [("a", ⟨""⟩), ("b", ⟨""⟩), ("c", ⟨"My Channel"⟩)] }
      = [ReportError "Name" "Name" "required" ""]
    ∧ slackChannelNameRegex.MatchString (trimNormalize "My Channel") = false := by
  decide

/-- The Slack grammar where the loop reaches every channel: for an enabled CloudSlack or
SocketSlack platform whose channel map holds no empty name, a channel of the map gets its
channel-format violation exactly when its normalized name is not a string of 1 to 79
lowercase ASCII letters, digits, hyphens and underscores. -/
theorem slack_grammar_of_nonempty (normalize : String → String)
    (cloudSlack : CloudSlack) (socketSlack : SocketSlack)
    (hc : cloudSlack.Enabled = true) (hs : socketSlack.Enabled = true)
    (hcne : ∀ e ∈ cloudSlack.Channels, e.2.Name ≠ "")
    (hsne : ∀ e ∈ socketSlack.Channels, e.2.Name ≠ "")
    (channelAlias : String) (channel : ChannelBindingsByName) :
    ((channelAlias, channel) ∈ cloudSlack.Channels →
      (ReportError channel.Name (channelAlias ++ "." ++ "Name") invalidChannelNameTag
          slackDocsURL ∈ cloudSlackValidator normalize cloudSlack
        ↔ ¬ (1 ≤ (normalize channel.Name).length ∧ (normalize channel.Name).length ≤ 79
            ∧ ∀ c ∈ (normalize channel.Name).toList,
                c.isLower = true ∨ c.isDigit = true ∨ c = '-' ∨ c = '_')))
    ∧ ((channelAlias, channel) ∈ socketSlack.Channels →
      (ReportError channel.Name (channelAlias ++ "." ++ "Name") invalidChannelNameTag
          slackDocsURL ∈ socketSlackValidator normalize socketSlack
        ↔ ¬ (1 ≤ (normalize channel.Name).length ∧ (normalize channel.Name).length ≤ 79
            ∧ ∀ c ∈ (normalize channel.Name).toList,
                c.isLower = true ∨ c.isDigit = true ∨ c = '-' ∨ c = '_'))) := by
  constructor
  · intro hmem
    have h := validateChannels_format_iff normalize slackChannelNameRegex true "Name"
      slackDocsURL cloudSlack.Channels hcne channelAlias channel hmem
    rw [← slackChannelNameRegex_iff, Bool.not_eq_true]
    simpa [cloudSlackValidator, hc, testedIdentifier, Identifiable.Identifier] using h
  · intro hmem
    have h := validateChannels_format_iff normalize slackChannelNameRegex true "Name"
      slackDocsURL socketSlack.Channels hsne channelAlias channel hmem
    have h' : slackChannelNameRegex.MatchString (normalize channel.Name) = false
        ↔ ReportError channel.Name (channelAlias ++ "." ++ "Name") invalidChannelNameTag
            slackDocsURL
          ∈ validateChannels normalize slackChannelNameRegex true socketSlack.Channels "Name"
              slackDocsURL := h.symm
    rw [← slackChannelNameRegex_iff, Bool.not_eq_true, h']
    simp only [socketSlackValidator, hs, Bool.not_true, Bool.false_eq_true, if_false,
      List.mem_append]
    constructor
    · rintro (((((h1 | h1) | h1) | h1)) | h1)
      · split at h1 <;> simp [ReportError, invalidChannelNameTag] at h1
      · split at h1 <;> simp [ReportError, invalidChannelNameTag] at h1
      · split at h1 <;> simp [ReportError, invalidChannelNameTag] at h1
      · split at h1 <;> simp [ReportError, invalidChannelNameTag] at h1
      · exact h1
    · intro h1
      exact Or.inr h1

/-- C9, the code at the failing input. Whatever the normaliser, a CloudSlack channel map
visited in the order `a` (empty name), `b` (name "My_Channel") gets the `required`
violation of `a` only: "My_Channel" is not reported. Visited in the order `b`, `a`, the
same map gets the channel-format violation of `b` as well. -/
theorem slack_grammar_skipped :
    (∀ normalize : String → String,
      cloudSlackValidator normalize
          { Enabled := true, Channels := [("a", ⟨""⟩), ("b", ⟨"My_Channel"⟩)] }
        = [ReportError "Name" "Name" "required" ""])
    ∧ cloudSlackValidator trimNormalize
          { Enabled := true, Channels := [("b", ⟨"My_Channel"⟩), ("a", ⟨""⟩)] }
        = [ReportError "My_Channel" "b.Name" invalidChannelNameTag slackDocsURL,
           ReportError "Name" "Name" "required" ""]
    ∧ slackChannelNameRegex.MatchString (trimNormalize "My_Channel") = false
    ∧ slackChannelNameRegex.MatchString (trimNormalize "my-channel-1") = true := by
  refine ⟨fun normalize => ?_, by decide, by decide, by decide⟩
  simp [cloudSlackValidator, validateChannels, validateChannelsLoop, Identifiable.Identifier]

/-- C10, refuted as stated: with a normaliser that drops a leading `#`, the raw Discord
identifier "#123" holds a character that is not a digit and `discordValidator` raises
nothing, because it tests the normalized identifier "123". -/
theorem discord_raw_counterexample :
    discordValidator trimNormalize { Enabled := true, Channels := [("a", ⟨"#123"⟩)] } = []
    ∧ '#' ∈ "#123".toList ∧ '#'.isDigit = false
    ∧ trimNormalize "#123" = "123" := by
  decide

/-- C10, amended: for an enabled Discord platform whose channel map holds no empty
identifier, and every channel of the map, `discordValidator` tests the normalized
identifier (it calls `validateChannels` with `shouldNormalize = true`) and raises the
channel-format violation of the channel if and only if the normalized identifier contains a
character that is not a decimal digit; the pattern accepts "12345" and rejects "abc". -/
theorem discord_normalized_grammar (normalize : String → String) (discord : Discord)
    (hen : discord.Enabled = true)
    (hne : ∀ e ∈ discord.Channels, e.2.ID ≠ "")
    (channelAlias : String) (channel : ChannelBindingsByID)
    (hmem : (channelAlias, channel) ∈ discord.Channels) :
    (ReportError channel.ID (channelAlias ++ "." ++ "ID") invalidChannelNameTag discordDocsURL
        ∈ discordValidator normalize discord
      ↔ ∃ c ∈ (normalize channel.ID).toList, c.isDigit = false)
    ∧ discordChannelIDRegex.MatchString "12345" = true
    ∧ discordChannelIDRegex.MatchString "abc" = false := by
  refine ⟨?_, by decide, by decide⟩
  have h := validateChannels_format_iff normalize discordChannelIDRegex true "ID"
    discordDocsURL discord.Channels hne channelAlias channel hmem
  have hnot : (∃ c ∈ (normalize channel.ID).toList, c.isDigit = false)
      ↔ discordChannelIDRegex.MatchString (normalize channel.ID) = false := by
    rw [← Bool.not_eq_true, discordChannelIDRegex_iff]
    simp
  rw [hnot]
  simpa [discordValidator, hen, testedIdentifier, Identifiable.Identifier] using h

/-- Witness of C10 (amended): the channels "12345" and "#abc" under a normaliser that drops
the leading `#`. -/
theorem discord_normalized_grammar_witness :
    (ReportError "#abc" ("b" ++ "." ++ "ID") invalidChannelNameTag discordDocsURL
        ∈ discordValidator trimNormalize
            { Enabled := true, Channels := [("a", ⟨"12345"⟩), ("b", ⟨"#abc"⟩)] }
      ↔ ∃ c ∈ (trimNormalize "#abc").toList, c.isDigit = false)
    ∧ discordChannelIDRegex.MatchString "12345" = true
    ∧ discordChannelIDRegex.MatchString "abc" = false :=
  discord_normalized_grammar trimNormalize
    { Enabled := true, Channels := [("a", ⟨"12345"⟩), ("b", ⟨"#abc"⟩)] } rfl (by decide)
    "b" ⟨"#abc"⟩ (by decide)

/-! ## Mattermost grammar -/

/-- The Mattermost pattern: any 1 to 64 characters. -/
theorem mattermostChannelNameRegex_iff (s : String) :
    mattermostChannelNameRegex.MatchString s = true ↔ 1 ≤ s.length ∧ s.length ≤ 64 := by
  have hclass : ∀ c, mattermostChannelNameRegex.classHas c = true := by
    intro c
    cases h : isPerlSpace c <;>
      simp [Regexp.classHas, mattermostChannelNameRegex, ClassItem.has, h]
  rw [Regexp.MatchString, Regexp.matchFrom_iff]
  simp only [hclass, implies_true, true_and, String.length]
  constructor
  · rintro ⟨hmin, hmax⟩
    have hmin' : 1 ≤ s.toList.length := by simpa [mattermostChannelNameRegex] using hmin
    have hne : s.toList ≠ [] := by
      intro h; rw [h] at hmin'; simp at hmin'
    have := hmax 64 rfl hne
    exact ⟨hmin', by simpa using this⟩
  · rintro ⟨hmin, hmax⟩
    refine ⟨by simpa [mattermostChannelNameRegex] using hmin, fun m hm _ => ?_⟩
    simp only [mattermostChannelNameRegex, Option.some.injEq] at hm
    subst hm
    simpa using hmax

/-- The Mattermost grammar where the loop reaches every channel: for an enabled Mattermost
platform whose channel map holds no empty name, a channel of the map gets its
channel-format violation exactly when its raw name has more than 64 characters. -/
theorem mattermost_grammar_of_nonempty (normalize : String → String)
    (mattermost : Mattermost) (hen : mattermost.Enabled = true)
    (hne : ∀ e ∈ mattermost.Channels, e.2.Name ≠ "")
    (channelAlias : String) (channel : ChannelBindingsByName)
    (hmem : (channelAlias, channel) ∈ mattermost.Channels) :
    ReportError channel.Name (channelAlias ++ "." ++ "Name") invalidChannelNameTag
        mattermostDocsURL ∈ mattermostValidator normalize mattermost
      ↔ 64 < channel.Name.length := by
  have h := validateChannels_format_iff normalize mattermostChannelNameRegex false "Name"
    mattermostDocsURL mattermost.Channels hne channelAlias channel hmem
  have hlen : 1 ≤ channel.Name.length := by
    have h0 := hne _ hmem
    rcases Nat.eq_zero_or_pos channel.Name.length with hz | hp
    · exfalso
      apply h0
      apply String.ext
      exact List.length_eq_zero.1 hz
    · exact hp
  have hnot : 64 < channel.Name.length
      ↔ mattermostChannelNameRegex.MatchString channel.Name = false := by
    rw [← Bool.not_eq_true, mattermostChannelNameRegex_iff]
    omega
  rw [hnot]
  simpa [mattermostValidator, hen, testedIdentifier, Identifiable.Identifier] using h

/-- C11, the code at the failing input. Whatever the normaliser, a Mattermost channel map
visited in the order `a` (empty name), `b` (a name of 65 characters) gets the `required`
violation of `a` only: the name of `b` is longer than 64 characters and fails the pattern,
and no channel-format violation is raised for it. -/
theorem mattermost_grammar_skipped :
    (∀ normalize : String → String,
      mattermostValidator normalize
          { Enabled := true,
            Channels := [("a", ⟨""⟩), ("b", ⟨String.mk (List.replicate 65 'x')⟩)] }
        = [ReportError "Name" "Name" "required" ""])
    ∧ (String.mk (List.replicate 65 'x')).length = 65
    ∧ mattermostChannelNameRegex.MatchString (String.mk (List.replicate 65 'x')) = false := by
  refine ⟨fun normalize => ?_, by decide, by decide⟩
  simp [mattermostValidator, validateChannels, validateChannelsLoop, Identifiable.Identifier]

/-! ## Severity -/

/-- Every violation of `validateChannels` is the `required` violation of the empty map, the
`required` violation of an empty identifier, or the channel-format violation of a channel
of the map whose tested identifier fails the pattern. -/
theorem mem_validateChannels {T : Type} [Identifiable T]
    (normalize : String → String) (regex : Regexp) (shouldNormalize : Bool)
    (channels : GoMap T) (fieldName docsURL : String) (v : Violation)
    (hv : v ∈ validateChannels normalize regex shouldNormalize channels fieldName docsURL) :
    v = ReportError "Channels" "Channels" "required" ""
    ∨ v = ReportError fieldName fieldName "required" ""
    ∨ ∃ e ∈ channels, Identifiable.Identifier e.2 ≠ ""
        ∧ regex.MatchString
            (testedIdentifier normalize shouldNormalize (Identifiable.Identifier e.2)) = false
        ∧ v = ReportError (Identifiable.Identifier e.2) (e.1 ++ "." ++ fieldName)
            invalidChannelNameTag docsURL := by
  have hloop : ∀ chans : GoMap T,
      v ∈ validateChannelsLoop normalize regex shouldNormalize fieldName docsURL chans →
      v = ReportError fieldName fieldName "required" ""
      ∨ ∃ e ∈ chans, Identifiable.Identifier e.2 ≠ ""
          ∧ regex.MatchString
              (testedIdentifier normalize shouldNormalize (Identifiable.Identifier e.2)) = false
          ∧ v = ReportError (Identifiable.Identifier e.2) (e.1 ++ "." ++ fieldName)
              invalidChannelNameTag docsURL := by
    intro chans
    induction chans with
    | nil => intro h; simp [validateChannelsLoop] at h
    | cons e rest ih =>
      obtain ⟨a, ch⟩ := e
      intro h
      rw [validateChannelsLoop] at h
      split at h
      · exact Or.inl (List.mem_singleton.1 h)
      · rename_i hne
        rcases List.mem_append.1 h with h1 | h2
        · right
          refine ⟨(a, ch), List.mem_cons_self _ _, hne, ?_⟩
          cases hm : regex.MatchString
            (testedIdentifier normalize shouldNormalize (Identifiable.Identifier ch))
          · simp only [testedIdentifier] at hm
            simp only [hm, Bool.not_false, if_true, List.mem_singleton] at h1
            exact ⟨rfl, h1⟩
          · simp only [testedIdentifier] at hm
            simp [hm] at h1
        · rcases ih h2 with h3 | ⟨e, he, h3⟩
          · exact Or.inl h3
          · exact Or.inr ⟨e, List.mem_cons_of_mem _ he, h3⟩
  unfold validateChannels at hv
  rcases List.mem_append.1 hv with h1 | h2
  · split at h1
    · exact Or.inl (List.mem_singleton.1 h1)
    · simp at h1
  · exact Or.inr (hloop channels h2)

theorem validateChannels_format {T : Type} [Identifiable T]
    (normalize : String → String) (regex : Regexp) (shouldNormalize : Bool)
    (channels : GoMap T) (fieldName docsURL : String) (v : Violation)
    (hv : v ∈ validateChannels normalize regex shouldNormalize channels fieldName docsURL)
    (hreq : v.tag ≠ "required") :
    v.tag = invalidChannelNameTag ∧ v.param = docsURL
    ∧ ∃ e ∈ channels, v.fieldName = Identifiable.Identifier e.2
        ∧ regex.MatchString
            (testedIdentifier normalize shouldNormalize (Identifiable.Identifier e.2))
          = false := by
  rcases mem_validateChannels normalize regex shouldNormalize channels fieldName docsURL v hv
    with h | h | ⟨e, he, -, hm, h⟩
  · subst h; exact absurd rfl hreq
  · subst h; exact absurd rfl hreq
  · subst h; exact ⟨rfl, rfl, e, he, rfl, hm⟩

theorem mem_socketSlackValidator (normalize : String → String) (slack : SocketSlack)
    (v : Violation) (hv : v ∈ socketSlackValidator normalize slack) :
    (v.tag = "required" ∨ v.tag = "invalid_slack_token")
    ∨ v ∈ validateChannels normalize slackChannelNameRegex true slack.Channels "Name"
        slackDocsURL := by
  unfold socketSlackValidator at hv
  split at hv
  · simp at hv
  · simp only [List.mem_append] at hv
    rcases hv with (((h | h) | h) | h) | h
    · split at h
      · rw [List.mem_singleton.1 h]; exact Or.inl (Or.inl rfl)
      · simp at h
    · split at h
      · rw [List.mem_singleton.1 h]; exact Or.inl (Or.inl rfl)
      · simp at h
    · split at h
      · rw [List.mem_singleton.1 h]; exact Or.inl (Or.inr rfl)
      · simp at h
    · split at h
      · rw [List.mem_singleton.1 h]; exact Or.inl (Or.inr rfl)
      · simp at h
    · exact Or.inr h

theorem appendViolation_warning (lib : ValidatorLibrary) (result : ValidateResult)
    (e : Violation) (h : e.tag ∈ warnsOnlyTags) :
    appendViolation lib result e
      = { result with Warnings := multierrx.Append result.Warnings (violationMessage lib e) } := by
  simp [appendViolation, h, violationMessage]

theorem appendViolation_critical (lib : ValidatorLibrary) (result : ValidateResult)
    (e : Violation) (h : e.tag ∉ warnsOnlyTags) :
    appendViolation lib result e
      = { result with
          Criticals := multierrx.Append result.Criticals (violationMessage lib e) } := by
  simp [appendViolation, h, violationMessage]

/-- The loop of `ValidateStruct` splits the violations by tag, keeping their order. -/
theorem foldl_appendViolation (lib : ValidatorLibrary) (errs : List Violation)
    (c w : List Error) :
    errs.foldl (appendViolation lib) { Criticals := some c, Warnings := some w }
      = { Criticals := some (c ++ (errs.filter
            (fun e => decide (e.tag ∉ warnsOnlyTags))).map (violationMessage lib)),
          Warnings := some (w ++ (errs.filter
            (fun e => decide (e.tag ∈ warnsOnlyTags))).map (violationMessage lib)) } := by
  induction errs generalizing c w with
  | nil => simp
  | cons e rest ih =>
    rw [List.foldl_cons]
    by_cases h : e.tag ∈ warnsOnlyTags
    · rw [appendViolation_warning lib _ e h]
      simp only [multierrx.Append, Option.getD_some]
      rw [ih]
      simp [List.filter_cons, h]
    · rw [appendViolation_critical lib _ e h]
      simp only [multierrx.Append, Option.getD_some]
      rw [ih]
      simp [List.filter_cons, h]

/-- The result of `ValidateStruct` when every registration succeeds. -/
theorem ValidateStruct_of_registered (lib : ValidatorLibrary)
    (h0 : lib.RegisterDefaultTranslations = none)
    (h1 : registerCustomTranslations lib = none)
    (h2 : registerRegexConstraintsValidator lib = none)
    (h3 : registerBindingsValidator lib = none)
    (h4 : registerAliasValidator lib = none) :
    ValidateStruct lib =
      match lib.Struct with
      | .noError => ({ Criticals := none, Warnings := none }, none)
      | .other err => ({ Criticals := none, Warnings := none }, some err)
      | .validationErrors errs =>
        (errs.foldl (appendViolation lib)
          { Criticals := multierrx.New, Warnings := multierrx.New }, none) := by
  unfold ValidateStruct
  rw [h0, h1, h2, h3, h4]

/-- C12. Channel-format violations never block startup: a violation raised by one of the
four platform validators that check channels, other than a `required` or a token violation,
is raised for a channel of the map whose tested identifier fails the platform pattern; it
carries the raw identifier as field and the documentation URL of the platform as
parameter; its tag is `invalid_channel_name`, a tag of `warnsOnlyTags`. When every
registration succeeds and the validation returns the violations `errs` with this violation
among them, `ValidateStruct` returns a nil error with both lists set, the message of the
violation is in `Warnings`, `Criticals` holds the messages of the violations with a tag
outside `warnsOnlyTags` only, this violation is not one of them, and `Criticals` is empty
when every violation found is a channel-format violation. In the loop of `ValidateStruct`
the step for this violation appends its message to `Warnings` and leaves `Criticals` as it
is. -/
theorem channel_format_never_blocks (normalize : String → String) (lib : ValidatorLibrary)
    (result : ValidateResult) (socketSlack : SocketSlack) (cloudSlack : CloudSlack)
    (discord : Discord) (mattermost : Mattermost) (v : Violation) (errs : List Violation)
    (hv : v ∈ socketSlackValidator normalize socketSlack
      ∨ v ∈ cloudSlackValidator normalize cloudSlack
      ∨ v ∈ discordValidator normalize discord
      ∨ v ∈ mattermostValidator normalize mattermost)
    (hreq : v.tag ≠ "required") (htok : v.tag ≠ "invalid_slack_token")
    (h0 : lib.RegisterDefaultTranslations = none)
    (h1 : registerCustomTranslations lib = none)
    (h2 : registerRegexConstraintsValidator lib = none)
    (h3 : registerBindingsValidator lib = none)
    (h4 : registerAliasValidator lib = none)
    (hstruct : lib.Struct = .validationErrors errs) (hin : v ∈ errs) :
    v.tag = invalidChannelNameTag ∧ v.tag ∈ warnsOnlyTags
    ∧ (v ∈ socketSlackValidator normalize socketSlack →
        v.param = slackDocsURL ∧ ∃ e ∈ socketSlack.Channels, v.fieldName = e.2.Name
          ∧ slackChannelNameRegex.MatchString (normalize e.2.Name) = false)
    ∧ (v ∈ cloudSlackValidator normalize cloudSlack →
        v.param = slackDocsURL ∧ ∃ e ∈ cloudSlack.Channels, v.fieldName = e.2.Name
          ∧ slackChannelNameRegex.MatchString (normalize e.2.Name) = false)
    ∧ (v ∈ discordValidator normalize discord →
        v.param = discordDocsURL ∧ ∃ e ∈ discord.Channels, v.fieldName = e.2.ID
          ∧ discordChannelIDRegex.MatchString (normalize e.2.ID) = false)
    ∧ (v ∈ mattermostValidator normalize mattermost →
        v.param = mattermostDocsURL ∧ ∃ e ∈ mattermost.Channels, v.fieldName = e.2.Name
          ∧ mattermostChannelNameRegex.MatchString e.2.Name = false)
    ∧ (appendViolation lib result v).Warnings
        = multierrx.Append result.Warnings (violationMessage lib v)
    ∧ (appendViolation lib result v).Criticals = result.Criticals
    ∧ ∃ criticals warnings,
        ValidateStruct lib
          = ({ Criticals := some criticals, Warnings := some warnings }, none)
        ∧ violationMessage lib v ∈ warnings
        ∧ criticals = (errs.filter (fun e => decide (e.tag ∉ warnsOnlyTags))).map
            (violationMessage lib)
        ∧ v ∉ errs.filter (fun e => decide (e.tag ∉ warnsOnlyTags))
        ∧ ((∀ e ∈ errs, e.tag = invalidChannelNameTag) → criticals = []) := by
  have hs : v ∈ socketSlackValidator normalize socketSlack →
      v ∈ validateChannels normalize slackChannelNameRegex true socketSlack.Channels "Name"
        slackDocsURL := by
    intro h
    rcases mem_socketSlackValidator normalize socketSlack v h with (h' | h') | h'
    · exact absurd h' hreq
    · exact absurd h' htok
    · exact h'
  have hc : v ∈ cloudSlackValidator normalize cloudSlack →
      v ∈ validateChannels normalize slackChannelNameRegex true cloudSlack.Channels "Name"
        slackDocsURL := by
    intro h
    unfold cloudSlackValidator at h
    split at h
    · simp at h
    · exact h
  have hd : v ∈ discordValidator normalize discord →
      v ∈ validateChannels normalize discordChannelIDRegex true discord.Channels "ID"
        discordDocsURL := by
    intro h
    unfold discordValidator at h
    split at h
    · simp at h
    · exact h
  have hm : v ∈ mattermostValidator normalize mattermost →
      v ∈ validateChannels normalize mattermostChannelNameRegex false mattermost.Channels
        "Name" mattermostDocsURL := by
    intro h
    unfold mattermostValidator at h
    split at h
    · simp at h
    · exact h
  have htag : v.tag = invalidChannelNameTag := by
    rcases hv with h | h | h | h
    · exact (validateChannels_format _ _ _ _ _ _ v (hs h) hreq).1
    · exact (validateChannels_format _ _ _ _ _ _ v (hc h) hreq).1
    · exact (validateChannels_format _ _ _ _ _ _ v (hd h) hreq).1
    · exact (validateChannels_format _ _ _ _ _ _ v (hm h) hreq).1
  have hwarn : v.tag ∈ warnsOnlyTags := by
    rw [htag]; decide
  refine ⟨htag, hwarn, ?_, ?_, ?_, ?_, ?_, ?_, ?_⟩
  · intro h
    obtain ⟨-, hp, e, he, hf, hmatch⟩ := validateChannels_format _ _ _ _ _ _ v (hs h) hreq
    exact ⟨hp, e, he, hf, hmatch⟩
  · intro h
    obtain ⟨-, hp, e, he, hf, hmatch⟩ := validateChannels_format _ _ _ _ _ _ v (hc h) hreq
    exact ⟨hp, e, he, hf, hmatch⟩
  · intro h
    obtain ⟨-, hp, e, he, hf, hmatch⟩ := validateChannels_format _ _ _ _ _ _ v (hd h) hreq
    exact ⟨hp, e, he, hf, hmatch⟩
  · intro h
    obtain ⟨-, hp, e, he, hf, hmatch⟩ := validateChannels_format _ _ _ _ _ _ v (hm h) hreq
    exact ⟨hp, e, he, hf, hmatch⟩
  · rw [appendViolation_warning lib result v hwarn]
  · rw [appendViolation_warning lib result v hwarn]
  · refine ⟨(errs.filter (fun e => decide (e.tag ∉ warnsOnlyTags))).map (violationMessage lib),
      (errs.filter (fun e => decide (e.tag ∈ warnsOnlyTags))).map (violationMessage lib),
      ?_, ?_, rfl, ?_, ?_⟩
    · rw [ValidateStruct_of_registered lib h0 h1 h2 h3 h4, hstruct]
      simp only [multierrx.New]
      rw [foldl_appendViolation]
      simp
    · exact List.mem_map_of_mem _ (List.mem_filter.2 ⟨hin, by simpa using hwarn⟩)
    · intro hmem
      have := (List.mem_filter.1 hmem).2
      simp only [decide_eq_true_eq] at this
      exact this hwarn
    · intro hall
      rw [List.map_eq_nil_iff, List.filter_eq_nil_iff]
      intro e he
      have hw : e.tag ∈ warnsOnlyTags := by
        rw [hall e he]; decide
      simpa using hw

/-- Witness of C12: the validation finds the channel-format violation of the CloudSlack
channel `a` named "My_Channel" and an undefined binding `x`. -/
theorem channel_format_never_blocks_witness :
    ReportError "My_Channel" "a.Name" invalidChannelNameTag slackDocsURL
      ∈ cloudSlackValidator trimNormalize
          { Enabled := true, Channels := [("a", ⟨"My_Channel"⟩)] }
    ∧ ∃ criticals warnings,
        ValidateStruct (quietLibrary (.validationErrors
            [ReportError "My_Channel" "a.Name" invalidChannelNameTag slackDocsURL,
             ReportError "x" "x" invalidBindingTag "Config.Sources"]))
          = ({ Criticals := some criticals, Warnings := some warnings }, none)
        ∧ violationMessage (quietLibrary (.validationErrors
            [ReportError "My_Channel" "a.Name" invalidChannelNameTag slackDocsURL,
             ReportError "x" "x" invalidBindingTag "Config.Sources"]))
            (ReportError "My_Channel" "a.Name" invalidChannelNameTag slackDocsURL) ∈ warnings
        ∧ criticals = ["Key: 'x' invalid_binding"] := by
  obtain ⟨c, w, h, hw, hc, -⟩ :=
    (channel_format_never_blocks trimNormalize
      (quietLibrary (.validationErrors
        [ReportError "My_Channel" "a.Name" invalidChannelNameTag slackDocsURL,
         ReportError "x" "x" invalidBindingTag "Config.Sources"]))
      { Criticals := some [], Warnings := some [] }
      { Enabled := false, Channels := [], BotToken := "", AppToken := "" }
      { Enabled := true, Channels := [("a", ⟨"My_Channel"⟩)] }
      { Enabled := false, Channels := [] } { Enabled := false, Channels := [] }
      (ReportError "My_Channel" "a.Name" invalidChannelNameTag slackDocsURL)
      [ReportError "My_Channel" "a.Name" invalidChannelNameTag slackDocsURL,
       ReportError "x" "x" invalidBindingTag "Config.Sources"]
      (Or.inr (Or.inl (by decide))) (by decide) (by decide)
      rfl rfl rfl rfl rfl rfl (List.mem_cons_self _ _)).2.2.2.2.2.2.2.2
  refine ⟨by decide, c, w, h, hw, ?_⟩
  rw [hc]; decide

/-- C13. Severity partition: when every registration succeeds and the validation returns
the violations `errs`, `ValidateStruct` returns a nil error, `Warnings` holds the messages
of the violations whose tag is in the allow-list {rs-include-regex, invalid_channel_name,
invalid_channel_id} and `Criticals` the messages of all the others, each in the order of
discovery; the two lengths add up to the number of violations, and `Criticals` is empty if
and only if every violation has an allow-listed tag. -/
theorem severity_partition (lib : ValidatorLibrary) (errs : List Violation)
    (h0 : lib.RegisterDefaultTranslations = none)
    (h1 : registerCustomTranslations lib = none)
    (h2 : registerRegexConstraintsValidator lib = none)
    (h3 : registerBindingsValidator lib = none)
    (h4 : registerAliasValidator lib = none)
    (hs : lib.Struct = .validationErrors errs) :
    ∃ criticals warnings,
      ValidateStruct lib
        = ({ Criticals := some criticals, Warnings := some warnings }, none)
      ∧ warnings = (errs.filter (fun e => decide (e.tag ∈ warnsOnlyTags))).map
          (violationMessage lib)
      ∧ criticals = (errs.filter (fun e => decide (e.tag ∉ warnsOnlyTags))).map
          (violationMessage lib)
      ∧ criticals.length + warnings.length = errs.length
      ∧ (criticals = [] ↔ ∀ e ∈ errs, e.tag ∈ warnsOnlyTags)
      ∧ warnsOnlyTags = ["rs-include-regex", "invalid_channel_name", "invalid_channel_id"] := by
  refine ⟨_, _, ?_, rfl, rfl, ?_, ?_, rfl⟩
  · rw [ValidateStruct_of_registered lib h0 h1 h2 h3 h4, hs]
    simp only [multierrx.New]
    rw [foldl_appendViolation]
    simp
  · simp only [List.length_map]
    clear hs
    induction errs with
    | nil => simp
    | cons e rest ih =>
      by_cases h : e.tag ∈ warnsOnlyTags
      · simp only [List.filter_cons, h, not_true_eq_false, decide_False, decide_True,
          if_true, List.length_cons, Bool.false_eq_true, if_false]
        omega
      · simp only [List.filter_cons, h, not_false_eq_true, decide_False, decide_True,
          if_true, List.length_cons, Bool.false_eq_true, if_false]
        omega
  · simp [List.filter_eq_nil_iff]

/-- Witness of C13: a run that finds a critical violation between two warnings. -/
theorem severity_partition_witness :
    ∃ criticals warnings,
      ValidateStruct (quietLibrary (.validationErrors
          [ReportError "My_Channel" "a.Name" invalidChannelNameTag slackDocsURL,
           ReportError "x" "x" invalidBindingTag "Config.Sources",
           ReportError "Include" "Include" regexConstraintsIncludeTag ""]))
        = ({ Criticals := some criticals, Warnings := some warnings }, none)
      ∧ warnings = ["Key: 'a.Name' invalid_channel_name", "Key: 'Include' rs-include-regex"]
      ∧ criticals = ["Key: 'x' invalid_binding"] := by
  obtain ⟨c, w, h, hw, hc, -⟩ := severity_partition
    (quietLibrary (.validationErrors
      [ReportError "My_Channel" "a.Name" invalidChannelNameTag slackDocsURL,
       ReportError "x" "x" invalidBindingTag "Config.Sources",
       ReportError "Include" "Include" regexConstraintsIncludeTag ""]))
    _ rfl rfl rfl rfl rfl rfl
  refine ⟨c, w, h, ?_, ?_⟩
  · rw [hw]; decide
  · rw [hc]; decide

theorem ValidateStruct_of_failed (lib : ValidatorLibrary)
    (h : ¬ (lib.RegisterDefaultTranslations = none ∧ registerCustomTranslations lib = none
      ∧ registerRegexConstraintsValidator lib = none ∧ registerBindingsValidator lib = none
      ∧ registerAliasValidator lib = none)) :
    ∃ err, ValidateStruct lib = ({ Criticals := none, Warnings := none }, some err) := by
  unfold ValidateStruct
  split
  · exact ⟨_, rfl⟩
  · split
    · exact ⟨_, rfl⟩
    · split
      · exact ⟨_, rfl⟩
      · split
        · exact ⟨_, rfl⟩
        · split
          · exact ⟨_, rfl⟩
          · simp_all

/-- C18. Hard failures are distinct from the accumulated lists: whenever `ValidateStruct`
returns a non-nil error the returned `ValidateResult` is the empty value, with neither
`Criticals` nor `Warnings` set; the error is non-nil exactly when a registration failed or
the validation returned an error that is not a list of violations; and when every
registration succeeds and the validation returns a list of violations, `ValidateStruct`
returns a nil error together with both lists set. -/
theorem hard_failure_distinct (lib : ValidatorLibrary) :
    ((ValidateStruct lib).2 ≠ none →
      (ValidateStruct lib).1 = { Criticals := none, Warnings := none })
    ∧ ((ValidateStruct lib).2 ≠ none ↔
        (lib.RegisterDefaultTranslations ≠ none ∨ registerCustomTranslations lib ≠ none
          ∨ registerRegexConstraintsValidator lib ≠ none
          ∨ registerBindingsValidator lib ≠ none ∨ registerAliasValidator lib ≠ none
          ∨ ∃ err, lib.Struct = .other err))
    ∧ (lib.RegisterDefaultTranslations = none → registerCustomTranslations lib = none →
        registerRegexConstraintsValidator lib = none → registerBindingsValidator lib = none →
        registerAliasValidator lib = none →
        ∀ errs, lib.Struct = .validationErrors errs →
          (ValidateStruct lib).2 = none ∧ (ValidateStruct lib).1.Criticals ≠ none
            ∧ (ValidateStruct lib).1.Warnings ≠ none) := by
  by_cases hreg : lib.RegisterDefaultTranslations = none ∧ registerCustomTranslations lib = none
      ∧ registerRegexConstraintsValidator lib = none ∧ registerBindingsValidator lib = none
      ∧ registerAliasValidator lib = none
  · obtain ⟨h0, h1, h2, h3, h4⟩ := hreg
    have hv := ValidateStruct_of_registered lib h0 h1 h2 h3 h4
    refine ⟨?_, ?_, ?_⟩
    · intro herr
      rw [hv] at herr ⊢
      cases hs : lib.Struct with
      | noError => rfl
      | other err => rfl
      | validationErrors errs => rw [hs] at herr; exact absurd rfl herr
    · rw [hv]
      cases hs : lib.Struct with
      | noError => simp [h0, h1, h2, h3, h4]
      | other err => simp [h0, h1, h2, h3, h4]
      | validationErrors errs => simp [h0, h1, h2, h3, h4]
    · intro _ _ _ _ _ errs hs
      rw [hv, hs]
      simp only [multierrx.New]
      rw [foldl_appendViolation]
      simp
  · obtain ⟨err, he⟩ := ValidateStruct_of_failed lib hreg
    refine ⟨?_, ?_, ?_⟩
    · intro _; rw [he]
    · rw [he]
      constructor
      · intro _
        by_contra hcon
        apply hreg
        simp only [not_or, not_not] at hcon
        exact ⟨hcon.1, hcon.2.1, hcon.2.2.1, hcon.2.2.2.1, hcon.2.2.2.2.1⟩
      · intro _; simp
    · intro h0 h1 h2 h3 h4
      exact absurd ⟨h0, h1, h2, h3, h4⟩ hreg

/-- Witness of C18: the registration of the translation of `invalid_plugin_rbac` fails. -/
theorem hard_failure_distinct_witness :
    (ValidateStruct
        { RegisterDefaultTranslations := none,
          RegisterTranslation := fun tag _ =>
            if tag = invalidPluginRBACTag then some "conflicting translation" else none,
          Struct := .validationErrors [ReportError "x" "x" invalidBindingTag "Config.Sources"],
          StructNamespace := fun e => e.structFieldName,
          Translate := fun e => e.tag }).2 = some "conflicting translation"
    ∧ (ValidateStruct
        { RegisterDefaultTranslations := none,
          RegisterTranslation := fun tag _ =>
            if tag = invalidPluginRBACTag then some "conflicting translation" else none,
          Struct := .validationErrors [ReportError "x" "x" invalidBindingTag "Config.Sources"],
          StructNamespace := fun e => e.structFieldName,
          Translate := fun e => e.tag }).1 = { Criticals := none, Warnings := none } :=
  ⟨by decide,
   (hard_failure_distinct
      { RegisterDefaultTranslations := none,
        RegisterTranslation := fun tag _ =>
          if tag = invalidPluginRBACTag then some "conflicting translation" else none,
        Struct := .validationErrors [ReportError "x" "x" invalidBindingTag "Config.Sources"],
        StructNamespace := fun e => e.structFieldName,
        Translate := fun e => e.tag }).1 (by decide)⟩

/-! ## Alias resolution -/

theorem prefixFound_iff (cmdPrefix : String) (l : List String) :
    prefixFound cmdPrefix l = true ↔ cmdPrefix ∈ l := by
  induction l with
  | nil => simp [prefixFound]
  | cons p rest ih =>
    by_cases h : p = cmdPrefix
    · subst h; simp [prefixFound]
    · have h' : ¬ cmdPrefix = p := fun e => h e.symm
      simp [prefixFound, h, h', ih]

theorem takeWhile_append_stop {α : Type} (p : α → Bool) (l r : List α) (x : α)
    (hl : ∀ a ∈ l, p a = true) (hx : p x = false) :
    (l ++ x :: r).takeWhile p = l := by
  induction l with
  | nil => simp [List.takeWhile, hx]
  | cons a rest ih =>
    have ha : p a = true := hl a (List.mem_cons_self _ _)
    have ih' := ih (fun b hb => hl b (List.mem_cons_of_mem _ hb))
    rw [List.cons_append, List.takeWhile_cons, ha, if_pos rfl, ih']

theorem cutBefore_append (a b : String) (ha : ' ' ∉ a.toList) :
    cutBefore (a ++ " " ++ b) = a := by
  apply String.ext
  have hdata : (a ++ " " ++ b).toList = a.toList ++ ' ' :: b.toList := by
    simp [String.toList, String.data_append]
  simp only [cutBefore, hdata]
  apply takeWhile_append_stop
  · intro c hc
    have : c ≠ ' ' := fun e => ha (e ▸ hc)
    simpa using this
  · simp

theorem cutBefore_of_no_space (s : String) (hs : ' ' ∉ s.toList) : cutBefore s = s := by
  apply String.ext
  simp only [cutBefore]
  show List.takeWhile (fun c => decide (c ≠ ' ')) s.toList = s.toList
  rw [List.takeWhile_eq_self_iff]
  intro c hc
  have : c ≠ ' ' := fun e => hs (e ▸ hc)
  simpa using this

/-- C14. Alias resolution: `aliasesStructValidator` raises exactly one violation, tagged
`invalid_alias_command` and naming the candidate prefix, when the alias command is
non-empty and its candidate prefix is neither among the command prefixes collected from the
executors of `Config.Executors` (all of them) nor among the built-in verbs, and raises
nothing otherwise. The candidate prefix is the part of the command before its first space,
the whole command when it holds no space. -/
theorem alias_resolution (CollectCommandPrefixes : Executors → List String)
    (AllVerbs : List String) (executors : GoMap Executors) (aliasCfg : Alias) :
    ((aliasCfg.Command ≠ ""
        ∧ (∀ e ∈ executors, cutBefore aliasCfg.Command ∉ CollectCommandPrefixes e.2)
        ∧ cutBefore aliasCfg.Command ∉ AllVerbs) →
      aliasesStructValidator CollectCommandPrefixes AllVerbs executors aliasCfg
        = [ReportError (cutBefore aliasCfg.Command) "Command" invalidAliasCommandTag ""])
    ∧ (¬ (aliasCfg.Command ≠ ""
        ∧ (∀ e ∈ executors, cutBefore aliasCfg.Command ∉ CollectCommandPrefixes e.2)
        ∧ cutBefore aliasCfg.Command ∉ AllVerbs) →
      aliasesStructValidator CollectCommandPrefixes AllVerbs executors aliasCfg = [])
    ∧ (∀ a b : String, ' ' ∉ a.toList → cutBefore (a ++ " " ++ b) = a)
    ∧ (∀ s : String, ' ' ∉ s.toList → cutBefore s = s)
    ∧ cutBefore "foo bar" = "foo" := by
  have hfound : prefixFound (cutBefore aliasCfg.Command)
        (executors.flatMap (fun e => CollectCommandPrefixes e.2) ++ AllVerbs) = true
      ↔ ¬ ((∀ e ∈ executors, cutBefore aliasCfg.Command ∉ CollectCommandPrefixes e.2)
        ∧ cutBefore aliasCfg.Command ∉ AllVerbs) := by
    rw [prefixFound_iff, List.mem_append, List.mem_flatMap]
    constructor
    · rintro (⟨e, he, hin⟩ | hin) ⟨h1, h2⟩
      · exact h1 e he hin
      · exact h2 hin
    · intro h
      by_contra hcon
      apply h
      simp only [not_or, not_exists, not_and] at hcon
      exact ⟨fun e he => hcon.1 e he, hcon.2⟩
  refine ⟨?_, ?_, cutBefore_append, cutBefore_of_no_space, by decide⟩
  · rintro ⟨hne, hrest⟩
    have hnf : prefixFound (cutBefore aliasCfg.Command)
        (executors.flatMap (fun e => CollectCommandPrefixes e.2) ++ AllVerbs) = false := by
      rw [← Bool.not_eq_true, hfound]
      exact fun h => h hrest
    simp [aliasesStructValidator, hne, hnf]
  · intro h
    by_cases hne : aliasCfg.Command = ""
    · simp [aliasesStructValidator, hne]
    · have hf : prefixFound (cutBefore aliasCfg.Command)
          (executors.flatMap (fun e => CollectCommandPrefixes e.2) ++ AllVerbs) = true := by
        rw [hfound]
        exact fun h' => h ⟨hne, h'⟩
      simp [aliasesStructValidator, hne, hf]

/-- Witness of C14: the alias "foo bar" where the only declared prefix is "kubectl" and the
built-in verbs are "get" and "ping". -/
theorem alias_resolution_witness :
    aliasesStructValidator (fun _ => ["kubectl"]) ["get", "ping"]
        [("k8s", ⟨[]⟩)] { Command := "foo bar" }
      = [ReportError (cutBefore "foo bar") "Command" invalidAliasCommandTag ""] :=
  (alias_resolution (fun _ => ["kubectl"]) ["get", "ping"] [("k8s", ⟨[]⟩)]
    { Command := "foo bar" }).1 (by decide)

/-! ## Regex constraints -/

theorem foundAllValuesPattern_iff (allValuesPattern : String) (l : List String) :
    foundAllValuesPattern allValuesPattern l = true ↔ allValuesPattern ∈ l := by
  induction l with
  | nil => simp [foundAllValuesPattern]
  | cons name rest ih =>
    by_cases h : name = allValuesPattern
    · subst h; simp [foundAllValuesPattern]
    · have h' : ¬ allValuesPattern = name := fun e => h e.symm
      simp [foundAllValuesPattern, h, h', ih]

/-- C15. Regex constraint redundancy: `regexConstraintsStructValidator` raises exactly one
violation, tagged `rs-include-regex` (a tag of `warnsOnlyTags`), when `Include` has at least
two entries and one of them equals the all-values pattern, and raises nothing otherwise; in
particular nothing for the list holding the pattern alone and nothing for a list without
the pattern. -/
theorem regex_constraint_redundancy (allValuesPattern : String) (rc : RegexConstraints) :
    ((2 ≤ rc.Include.length ∧ allValuesPattern ∈ rc.Include) →
      regexConstraintsStructValidator allValuesPattern rc
        = [ReportError "Include" "Include" regexConstraintsIncludeTag ""])
    ∧ (¬ (2 ≤ rc.Include.length ∧ allValuesPattern ∈ rc.Include) →
      regexConstraintsStructValidator allValuesPattern rc = [])
    ∧ regexConstraintsIncludeTag = "rs-include-regex"
    ∧ regexConstraintsIncludeTag ∈ warnsOnlyTags
    ∧ regexConstraintsStructValidator allValuesPattern { Include := [allValuesPattern] } = []
    ∧ (allValuesPattern ∉ rc.Include →
        regexConstraintsStructValidator allValuesPattern rc = []) := by
  have hno : ¬ (2 ≤ rc.Include.length ∧ allValuesPattern ∈ rc.Include) →
      regexConstraintsStructValidator allValuesPattern rc = [] := by
    intro h
    unfold regexConstraintsStructValidator
    split
    · rfl
    · rename_i hlen
      have hf : foundAllValuesPattern allValuesPattern rc.Include = false := by
        rw [← Bool.not_eq_true, foundAllValuesPattern_iff]
        intro hin
        exact h ⟨by omega, hin⟩
      simp [hf]
  refine ⟨?_, hno, rfl, by decide, ?_, fun h => hno (fun h' => h h'.2)⟩
  · rintro ⟨hlen, hin⟩
    have hl : ¬ rc.Include.length < 2 := by omega
    simp [regexConstraintsStructValidator, hl, (foundAllValuesPattern_iff _ _).2 hin]
  · simp [regexConstraintsStructValidator]

/-- Witness of C15: the pattern together with one namespace. -/
theorem regex_constraint_redundancy_witness :
    regexConstraintsStructValidator ".*" { Include := [".*", "ns-a"] }
      = [ReportError "Include" "Include" regexConstraintsIncludeTag ""] :=
  (regex_constraint_redundancy ".*" { Include := [".*", "ns-a"] }).1 (by decide)

/-! ## Platform switches and tokens -/

/-- C19. A disabled platform is never validated: each of the five platform validators
raises nothing when `Enabled` is false, whatever the tokens and the channel map are. -/
theorem disabled_platform_not_validated (normalize : String → String) (slack : Slack)
    (socketSlack : SocketSlack) (cloudSlack : CloudSlack) (discord : Discord)
    (mattermost : Mattermost)
    (h1 : slack.Enabled = false) (h2 : socketSlack.Enabled = false)
    (h3 : cloudSlack.Enabled = false) (h4 : discord.Enabled = false)
    (h5 : mattermost.Enabled = false) :
    slackStructTokenValidator slack = []
    ∧ socketSlackValidator normalize socketSlack = []
    ∧ cloudSlackValidator normalize cloudSlack = []
    ∧ discordValidator normalize discord = []
    ∧ mattermostValidator normalize mattermost = [] := by
  refine ⟨?_, ?_, ?_, ?_, ?_⟩
  · simp [slackStructTokenValidator, h1]
  · simp [socketSlackValidator, h2]
  · simp [cloudSlackValidator, h3]
  · simp [discordValidator, h4]
  · simp [mattermostValidator, h5]

/-- Witness of C19: five disabled platforms with missing tokens, an empty channel map, and
empty or malformed channel identifiers. -/
theorem disabled_platform_not_validated_witness :
    slackStructTokenValidator { Enabled := false, Channels := [], Token := "" } = []
    ∧ socketSlackValidator trimNormalize
        { Enabled := false, Channels := [("a", ⟨""⟩)], BotToken := "", AppToken := "bad" } = []
    ∧ cloudSlackValidator trimNormalize
        { Enabled := false, Channels := [("a", ⟨"My Channel"⟩)] } = []
    ∧ discordValidator trimNormalize { Enabled := false, Channels := [("a", ⟨"abc"⟩)] } = []
    ∧ mattermostValidator trimNormalize { Enabled := false, Channels := [] } = [] :=
  disabled_platform_not_validated trimNormalize
    { Enabled := false, Channels := [], Token := "" }
    { Enabled := false, Channels := [("a", ⟨""⟩)], BotToken := "", AppToken := "bad" }
    { Enabled := false, Channels := [("a", ⟨"My Channel"⟩)] }
    { Enabled := false, Channels := [("a", ⟨"abc"⟩)] }
    { Enabled := false, Channels := [] } rfl rfl rfl rfl rfl

theorem hasPrefix_empty_bot : HasPrefix "" botTokenPrefix = false := by decide

theorem hasPrefix_empty_app : HasPrefix "" appTokenPrefix = false := by decide

/-- C20. Slack token checks. For an enabled Slack platform `slackStructTokenValidator`
raises the single violation `required` when the token is empty, the single violation
`invalid_slack_token` when the token is non-empty and does not start with "xoxb-", and
nothing otherwise. For an enabled SocketSlack platform the report of
`socketSlackValidator` is a list of token violations followed by the whole report of
`validateChannels`; the token violations are empty if and only if `BotToken` starts with
"xoxb-" and `AppToken` starts with "xapp-", and an empty `BotToken` (resp. `AppToken`)
raises both a `required` and an `invalid_slack_token` violation for that token. -/
theorem slack_token_checks (normalize : String → String) (slack : Slack)
    (socketSlack : SocketSlack) (hs : slack.Enabled = true)
    (hss : socketSlack.Enabled = true) :
    (slack.Token = "" →
      slackStructTokenValidator slack = [ReportError "Token" "Token" "required" ""])
    ∧ (slack.Token ≠ "" → HasPrefix slack.Token "xoxb-" = false →
      ∃ msg, slackStructTokenValidator slack
        = [ReportError "Token" "Token" "invalid_slack_token" msg])
    ∧ (slack.Token ≠ "" → HasPrefix slack.Token "xoxb-" = true →
      slackStructTokenValidator slack = [])
    ∧ (slackStructTokenValidator slack).length ≤ 1
    ∧ ∃ tokens,
        socketSlackValidator normalize socketSlack
          = tokens ++ validateChannels normalize slackChannelNameRegex true
              socketSlack.Channels "Name" slackDocsURL
        ∧ (∀ v ∈ tokens, (v.fieldName = "BotToken" ∨ v.fieldName = "AppToken")
            ∧ (v.tag = "required" ∨ v.tag = "invalid_slack_token"))
        ∧ (tokens = [] ↔ (HasPrefix socketSlack.BotToken "xoxb-" = true
            ∧ HasPrefix socketSlack.AppToken "xapp-" = true))
        ∧ (socketSlack.BotToken = "" →
            (∃ v ∈ tokens, v.fieldName = "BotToken" ∧ v.tag = "required")
            ∧ ∃ v ∈ tokens, v.fieldName = "BotToken" ∧ v.tag = "invalid_slack_token")
        ∧ (socketSlack.AppToken = "" →
            (∃ v ∈ tokens, v.fieldName = "AppToken" ∧ v.tag = "required")
            ∧ ∃ v ∈ tokens, v.fieldName = "AppToken" ∧ v.tag = "invalid_slack_token") := by
  have hb : botTokenPrefix = "xoxb-" := rfl
  have ha : appTokenPrefix = "xapp-" := rfl
  refine ⟨?_, ?_, ?_, ?_, ?_⟩
  · intro h
    simp [slackStructTokenValidator, hs, h]
  · intro h hp
    rw [← hb] at hp
    exact ⟨"must have the " ++ botTokenPrefix ++ " prefix. Learn more at https://docs.botkube.io/installation/slack/#install-botkube-slack-app-to-your-slack-workspace",
      by simp [slackStructTokenValidator, hs, h, hp]⟩
  · intro h hp
    rw [← hb] at hp
    simp [slackStructTokenValidator, hs, h, hp]
  · unfold slackStructTokenValidator
    split
    · simp
    · split
      · simp
      · split <;> simp
  · rw [← hb, ← ha]
    refine ⟨(if socketSlack.AppToken = "" then [ReportError "AppToken" "AppToken" "required" ""]
          else [])
        ++ (if socketSlack.BotToken = "" then [ReportError "BotToken" "BotToken" "required" ""]
          else [])
        ++ (if !HasPrefix socketSlack.BotToken botTokenPrefix then
            [ReportError "BotToken" "BotToken" "invalid_slack_token"
              ("must have the " ++ botTokenPrefix ++ " prefix. Learn more at https://docs.botkube.io/installation/socketslack/#obtain-bot-token")]
          else [])
        ++ (if !HasPrefix socketSlack.AppToken appTokenPrefix then
            [ReportError "AppToken" "AppToken" "invalid_slack_token"
              ("must have the " ++ appTokenPrefix ++ " prefix. Learn more at https://docs.botkube.io/installation/socketslack/#generate-and-obtain-app-level-token")]
          else []), ?_, ?_, ?_, ?_, ?_⟩
    · simp [socketSlackValidator, hss]
    · intro v hv
      simp only [List.mem_append] at hv
      rcases hv with ((h | h) | h) | h
      · split at h
        · rw [List.mem_singleton.1 h]; simp [ReportError]
        · simp at h
      · split at h
        · rw [List.mem_singleton.1 h]; simp [ReportError]
        · simp at h
      · split at h
        · rw [List.mem_singleton.1 h]; simp [ReportError]
        · simp at h
      · split at h
        · rw [List.mem_singleton.1 h]; simp [ReportError]
        · simp at h
    · constructor
      · intro h
        simp only [List.append_eq_nil] at h
        obtain ⟨⟨⟨-, -⟩, h3⟩, h4⟩ := h
        constructor
        · by_contra hc
          simp [hc] at h3
        · by_contra hc
          simp [hc] at h4
      · rintro ⟨h1, h2⟩
        have hbne : socketSlack.BotToken ≠ "" := by
          intro e; rw [e, hasPrefix_empty_bot] at h1; exact Bool.noConfusion h1
        have hane : socketSlack.AppToken ≠ "" := by
          intro e; rw [e, hasPrefix_empty_app] at h2; exact Bool.noConfusion h2
        simp [h1, h2, hbne, hane]
    · intro h
      have hp : HasPrefix socketSlack.BotToken botTokenPrefix = false := by
        rw [h]; exact hasPrefix_empty_bot
      exact ⟨⟨ReportError "BotToken" "BotToken" "required" "", by simp [h], rfl, rfl⟩,
        ⟨ReportError "BotToken" "BotToken" "invalid_slack_token"
          ("must have the " ++ botTokenPrefix ++ " prefix. Learn more at https://docs.botkube.io/installation/socketslack/#obtain-bot-token"),
          by simp [hp], rfl, rfl⟩⟩
    · intro h
      have hp : HasPrefix socketSlack.AppToken appTokenPrefix = false := by
        rw [h]; exact hasPrefix_empty_app
      exact ⟨⟨ReportError "AppToken" "AppToken" "required" "", by simp [h], rfl, rfl⟩,
        ⟨ReportError "AppToken" "AppToken" "invalid_slack_token"
          ("must have the " ++ appTokenPrefix ++ " prefix. Learn more at https://docs.botkube.io/installation/socketslack/#generate-and-obtain-app-level-token"),
          by simp [hp], rfl, rfl⟩⟩

/-- Witness of C20: an enabled Slack platform with an empty token. -/
theorem slack_token_checks_witness :
    slackStructTokenValidator { Enabled := true, Channels := [], Token := "" }
      = [ReportError "Token" "Token" "required" ""] :=
  (slack_token_checks trimNormalize { Enabled := true, Channels := [], Token := "" }
    { Enabled := true, Channels := [("a", ⟨"general"⟩)], BotToken := "", AppToken := "xapp-1" }
    rfl rfl).1 rfl

/-! ## Disabled plugins and the RBAC check -/

theorem DisabledReplaced_replaceDisabledRBAC (plugins : Plugins) (k : String)
    (rbac : Option PolicyRule) :
    DisabledReplaced plugins (replaceDisabledRBAC plugins k rbac) := by
  induction plugins with
  | nil => exact List.Forall₂.nil
  | cons e rest ih =>
    refine List.Forall₂.cons ?_ ih
    by_cases h : e.1 = k ∧ e.2.Enabled = false
    · simp [h]
    · simp [h]

theorem SameButDisabled_of_replaced (plugins plugins' : Plugins)
    (h : DisabledReplaced plugins plugins') : SameButDisabled plugins plugins' := by
  induction h with
  | nil => intro k; exact Or.inl ⟨rfl, rfl⟩
  | @cons e e' rest rest' hhead _ ih =>
    obtain ⟨k0, p0⟩ := e
    obtain ⟨k0', p0'⟩ := e'
    obtain ⟨hk, hen, hsame⟩ := hhead
    simp only at hk hen hsame
    subst hk
    intro k
    by_cases hkk : k = k0
    · subst hkk
      exact Or.inr ⟨p0, p0', by simp [GoMap.get?, List.lookup],
        by simp [GoMap.get?, List.lookup], hen, hsame⟩
    · have hb : (k == k0) = false := by simpa using hkk
      have h1 : GoMap.get? ((k0, p0) :: rest) k = GoMap.get? rest k := by
        simp [GoMap.get?, List.lookup, hb]
      have h2 : GoMap.get? ((k0, p0') :: rest') k = GoMap.get? rest' k := by
        simp [GoMap.get?, List.lookup, hb]
      rw [h1, h2]
      exact ih k

/-- Two enumerations of one map answer every index expression alike. -/
theorem GoMap.get?_perm {V : Type} (m m' : GoMap V) (hwf : m.WF) (hperm : List.Perm m m')
    (k : String) : m'.get? k = m.get? k := by
  have hwf' : m'.WF := by
    simp only [GoMap.WF, GoMap.keys] at hwf ⊢
    exact (hperm.map Prod.fst).nodup_iff.1 hwf
  cases h : m.get? k with
  | none =>
    rw [GoMap.get?_eq_none_iff] at h ⊢
    intro hin
    apply h
    simp only [GoMap.keys] at hin ⊢
    exact (hperm.map Prod.fst).mem_iff.2 hin
  | some v =>
    rw [GoMap.get?_eq_some_iff m hwf] at h
    rw [GoMap.get?_eq_some_iff m' hwf']
    exact hperm.mem_iff.1 h

theorem SameButDisabled_of_replaced_perm (plugins plugins' plugins'' : Plugins)
    (h : DisabledReplaced plugins plugins') (hwf : plugins'.WF)
    (hperm : List.Perm plugins' plugins'') : SameButDisabled plugins plugins'' := by
  intro k
  rw [GoMap.get?_perm plugins' plugins'' hwf hperm k]
  exact SameButDisabled_of_replaced plugins plugins' h k

theorem enabledIn_of_same {P : Type} [Inhabited P] [pluginProvider P]
    (pluginConfigs pluginConfigs' : GoMap P) (k b : String)
    (h : SameButDisabled (pluginProvider.GetPlugins (pluginConfigs.get b))
      (pluginProvider.GetPlugins (pluginConfigs'.get b))) :
    enabledIn pluginConfigs' k b = enabledIn pluginConfigs k b := by
  unfold enabledIn
  rcases h k with ⟨h1, h2⟩ | ⟨p, p', h1, h2, hen, -⟩
  · rw [h1, h2]
  · rw [h1, h2]
    exact hen.symm

theorem get?_of_same (plugins plugins' : Plugins) (h : SameButDisabled plugins plugins')
    (k : String) (p : Plugin) (hget : plugins.get? k = some p) (hen : p.Enabled = true) :
    plugins'.get? k = some p := by
  rcases h k with ⟨h1, -⟩ | ⟨q, q', h1, h2, -, hsame⟩
  · rw [h1] at hget; cases hget
  · rw [h1] at hget
    cases hget
    rw [h2, ← hsame hen]

/-- The maps `groups` of two runs on plugin maps that agree except for disabled plugins
hold the same entries. -/
theorem rbacGroups_perm {P : Type} [Inhabited P] [pluginProvider P]
    (pluginConfigs pluginConfigs' : GoMap P) (bindings : List String)
    (hwf : ∀ b ∈ bindings, (pluginProvider.GetPlugins (pluginConfigs.get b)).WF)
    (hwf' : ∀ b ∈ bindings, (pluginProvider.GetPlugins (pluginConfigs'.get b)).WF)
    (hrep : ∀ b ∈ bindings,
      SameButDisabled (pluginProvider.GetPlugins (pluginConfigs.get b))
        (pluginProvider.GetPlugins (pluginConfigs'.get b))) :
    List.Perm (rbacGroups pluginConfigs' bindings) (rbacGroups pluginConfigs bindings) := by
  obtain ⟨hinv, hget⟩ := rbacGroups_spec pluginConfigs bindings hwf
  obtain ⟨hinv', hget'⟩ := rbacGroups_spec pluginConfigs' bindings hwf'
  have hnd : (rbacGroups pluginConfigs bindings).Nodup := List.Nodup.of_map Prod.fst hinv.1
  have hnd' : (rbacGroups pluginConfigs' bindings).Nodup := List.Nodup.of_map Prod.fst hinv'.1
  rw [List.perm_ext_iff_of_nodup hnd' hnd]
  rintro ⟨k, occ⟩
  rw [mem_groups_iff _ hinv' k occ, mem_groups_iff _ hinv k occ, hget' k, hget k]
  have hf : bindings.filter (fun b => enabledIn pluginConfigs' k b)
      = bindings.filter (fun b => enabledIn pluginConfigs k b) :=
    List.filter_congr (fun b hb => enabledIn_of_same pluginConfigs pluginConfigs' k b (hrep b hb))
  rw [hf]

theorem flatMap_congr_mem {α β : Type} (f g : α → List β) (l : List α)
    (h : ∀ a ∈ l, f a = g a) : l.flatMap f = l.flatMap g := by
  induction l with
  | nil => rfl
  | cons a rest ih =>
    simp only [List.flatMap_cons]
    rw [h a (List.mem_cons_self _ _), ih (fun b hb => h b (List.mem_cons_of_mem _ hb))]

theorem compareGroup_congr {P : Type} [Inhabited P] [pluginProvider P]
    (pluginConfigs pluginConfigs' : GoMap P) (k : String) (occ : List String)
    (h : ∀ b ∈ occ, (pluginProvider.GetPlugins (pluginConfigs'.get b)).get? k
      = (pluginProvider.GetPlugins (pluginConfigs.get b)).get? k) :
    compareGroup pluginConfigs' k occ = compareGroup pluginConfigs k occ := by
  unfold compareGroup
  split
  · rfl
  · cases occ with
    | nil => rfl
    | cons p1 tail =>
      simp only
      rw [h p1 (List.mem_cons_self _ _)]
      cases (pluginProvider.GetPlugins (pluginConfigs.get p1)).get? k with
      | none => rfl
      | some c =>
        simp only
        apply flatMap_congr_mem
        intro n hn
        rw [h n (List.mem_cons_of_mem _ hn)]

/-- Every violation of one group names the head of the group and a later member, both
holding the plugin, with different policies. -/
theorem mem_compareGroup {P : Type} [Inhabited P] [pluginProvider P]
    (pluginConfigs : GoMap P) (k : String) (occ : List String) (v : Violation)
    (hv : v ∈ compareGroup pluginConfigs k occ) :
    ∃ b1 ∈ occ, ∃ b2 ∈ occ, ∃ p1 p2,
      (pluginProvider.GetPlugins (pluginConfigs.get b1)).get? k = some p1
      ∧ (pluginProvider.GetPlugins (pluginConfigs.get b2)).get? k = some p2
      ∧ p1.Context.RBAC ≠ p2.Context.RBAC
      ∧ v = ReportError b1 b1 invalidPluginRBACTag b2 := by
  unfold compareGroup at hv
  split at hv
  · simp at hv
  · cases occ with
    | nil => simp at hv
    | cons p1 tail =>
      simp only at hv
      cases h1 : (pluginProvider.GetPlugins (pluginConfigs.get p1)).get? k with
      | none => rw [h1] at hv; simp at hv
      | some c =>
        rw [h1] at hv
        simp only [List.mem_flatMap] at hv
        obtain ⟨n, hn, hv⟩ := hv
        cases h2 : (pluginProvider.GetPlugins (pluginConfigs.get n)).get? k with
        | none => rw [h2] at hv; simp at hv
        | some c' =>
          rw [h2] at hv
          simp only at hv
          split at hv
          · rename_i hne
            exact ⟨p1, List.mem_cons_self _ _, n, List.mem_cons_of_mem _ hn, c, c', h1, h2,
              hne, List.mem_singleton.1 hv⟩
          · simp at hv

/-- C16. Disabled plugins do not take part in the RBAC check (every plugin map reached being
a map). Let the plugin maps of `pluginConfigs'` agree with those of `pluginConfigs` except
for the contexts, hence the RBAC policies, of disabled plugins, in whatever order each map
is enumerated. Then, whatever the orders `groups` and `groups'` in which the two runs visit
their map of groups, `validatePluginRBAC` raises the same collection of violations on both
(the two reports are permutations of each other); and every violation raised names two
listed bindings that both hold an enabled plugin of one key with different policies. -/
theorem disabled_plugins_excluded {P : Type} [Inhabited P] [pluginProvider P]
    (pluginConfigs pluginConfigs' : GoMap P) (bindings : List String)
    (groups groups' : GoMap (List String))
    (hwf : ∀ b ∈ bindings, (pluginProvider.GetPlugins (pluginConfigs.get b)).WF)
    (hwf' : ∀ b ∈ bindings, (pluginProvider.GetPlugins (pluginConfigs'.get b)).WF)
    (hrep : ∀ b ∈ bindings,
      SameButDisabled (pluginProvider.GetPlugins (pluginConfigs.get b))
        (pluginProvider.GetPlugins (pluginConfigs'.get b)))
    (hg : List.Perm groups (rbacGroups pluginConfigs bindings))
    (hg' : List.Perm groups' (rbacGroups pluginConfigs' bindings)) :
    List.Perm (validatePluginRBACVisiting pluginConfigs' groups')
      (validatePluginRBACVisiting pluginConfigs groups)
    ∧ List.Perm (validatePluginRBAC pluginConfigs' bindings)
        (validatePluginRBAC pluginConfigs bindings)
    ∧ ∀ v ∈ validatePluginRBACVisiting pluginConfigs groups,
        v.tag = invalidPluginRBACTag ∧ v.fieldName ∈ bindings ∧ v.param ∈ bindings
        ∧ ∃ k p1 p2,
            (pluginProvider.GetPlugins (pluginConfigs.get v.fieldName)).get? k = some p1
            ∧ p1.Enabled = true
            ∧ (pluginProvider.GetPlugins (pluginConfigs.get v.param)).get? k = some p2
            ∧ p2.Enabled = true
            ∧ p1.Context.RBAC ≠ p2.Context.RBAC := by
  obtain ⟨hinv, hget⟩ := rbacGroups_spec pluginConfigs bindings hwf
  have hocc : ∀ e ∈ rbacGroups pluginConfigs bindings, ∀ b ∈ e.2,
      b ∈ bindings ∧ enabledIn pluginConfigs e.1 b = true := by
    rintro ⟨k, occ⟩ he b hb
    have h := ((mem_groups_iff _ hinv k occ).1 he).2
    rw [hget] at h
    rw [← h] at hb
    exact List.mem_filter.1 hb
  have hcongr : ∀ g : GoMap (List String), (∀ e ∈ g, e ∈ rbacGroups pluginConfigs bindings) →
      g.flatMap (fun e => compareGroup pluginConfigs' e.1 e.2)
        = g.flatMap (fun e => compareGroup pluginConfigs e.1 e.2) := by
    intro g hsub
    apply flatMap_congr_mem
    intro e he
    apply compareGroup_congr
    intro b hb
    obtain ⟨hbin, hen⟩ := hocc e (hsub e he) b hb
    obtain ⟨p, hp, hpe⟩ := (enabledIn_iff pluginConfigs e.1 b).1 hen
    rw [hp]
    exact get?_of_same _ _ (hrep b hbin) e.1 p hp hpe
  have hgroups := rbacGroups_perm pluginConfigs pluginConfigs' bindings hwf hwf' hrep
  have hperm : ∀ g g' : GoMap (List String),
      List.Perm g (rbacGroups pluginConfigs bindings) →
      List.Perm g' (rbacGroups pluginConfigs' bindings) →
      List.Perm (g'.flatMap (fun e => compareGroup pluginConfigs' e.1 e.2))
        (g.flatMap (fun e => compareGroup pluginConfigs e.1 e.2)) := by
    intro g g' h h'
    have hgg : List.Perm g' g := (h'.trans hgroups).trans h.symm
    rw [← hcongr g (fun e he => h.mem_iff.1 he)]
    exact hgg.flatMap_right _
  refine ⟨hperm groups groups' hg hg', ?_, ?_⟩
  · exact hperm _ _ (List.Perm.refl _) (List.Perm.refl _)
  · intro v hv
    simp only [validatePluginRBACVisiting, List.mem_flatMap] at hv
    obtain ⟨e, he, hv⟩ := hv
    have he' : e ∈ rbacGroups pluginConfigs bindings := hg.mem_iff.1 he
    obtain ⟨b1, hb1, b2, hb2, p1, p2, h1, h2, hne, rfl⟩ :=
      mem_compareGroup pluginConfigs e.1 e.2 v hv
    obtain ⟨hin1, hen1⟩ := hocc e he' b1 hb1
    obtain ⟨hin2, hen2⟩ := hocc e he' b2 hb2
    obtain ⟨q1, hq1, he1⟩ := (enabledIn_iff pluginConfigs e.1 b1).1 hen1
    obtain ⟨q2, hq2, he2⟩ := (enabledIn_iff pluginConfigs e.1 b2).1 hen2
    rw [h1] at hq1; cases hq1
    rw [h2] at hq2; cases hq2
    exact ⟨rfl, hin1, hin2, e.1, p1, p2, h1, he1, h2, he2, hne⟩

/-- Witness of C16: `b1` and `b2` disagree on the enabled plugin `j`, `b2` and `b3` on the
enabled plugin `k`, and `b3` holds the plugin `i` disabled. In the second run the disabled
plugin has another policy, the plugin map of `b3` is enumerated in the other order, and the
two groups are visited in the other order: the report is the same two violations, in the
other order. -/
theorem disabled_plugins_excluded_witness :
    List.Perm
      (validatePluginRBACVisiting
        [("b1", (⟨[("j", ⟨true, ⟨none⟩⟩)]⟩ : Sources)),
         ("b2", ⟨[("j", ⟨true, ⟨some ⟨⟨"Static", "dev"⟩⟩⟩⟩),
                  ("k", ⟨true, ⟨some ⟨⟨"Static", "ops"⟩⟩⟩⟩)]⟩),
         ("b3", ⟨[("i", ⟨false, ⟨none⟩⟩), ("k", ⟨true, ⟨none⟩⟩)]⟩)]
        [("k", ["b2", "b3"]), ("j", ["b1", "b2"])])
      (validatePluginRBACVisiting
        [("b1", (⟨[("j", ⟨true, ⟨none⟩⟩)]⟩ : Sources)),
         ("b2", ⟨[("j", ⟨true, ⟨some ⟨⟨"Static", "dev"⟩⟩⟩⟩),
                  ("k", ⟨true, ⟨some ⟨⟨"Static", "ops"⟩⟩⟩⟩)]⟩),
         ("b3", ⟨[("k", ⟨true, ⟨none⟩⟩), ("i", ⟨false, ⟨some ⟨⟨"Static", "dev"⟩⟩⟩⟩)]⟩)]
        [("j", ["b1", "b2"]), ("k", ["b2", "b3"])])
    ∧ validatePluginRBACVisiting
        [("b1", (⟨[("j", ⟨true, ⟨none⟩⟩)]⟩ : Sources)),
         ("b2", ⟨[("j", ⟨true, ⟨some ⟨⟨"Static", "dev"⟩⟩⟩⟩),
                  ("k", ⟨true, ⟨some ⟨⟨"Static", "ops"⟩⟩⟩⟩)]⟩),
         ("b3", ⟨[("i", ⟨false, ⟨none⟩⟩), ("k", ⟨true, ⟨none⟩⟩)]⟩)]
        [("k", ["b2", "b3"]), ("j", ["b1", "b2"])]
      = [ReportError "b2" "b2" invalidPluginRBACTag "b3",
         ReportError "b1" "b1" invalidPluginRBACTag "b2"] :=
  ⟨(disabled_plugins_excluded
    [("b1", (⟨[("j", ⟨true, ⟨none⟩⟩)]⟩ : Sources)),
     ("b2", ⟨[("j", ⟨true, ⟨some ⟨⟨"Static", "dev"⟩⟩⟩⟩),
              ("k", ⟨true, ⟨some ⟨⟨"Static", "ops"⟩⟩⟩⟩)]⟩),
     ("b3", ⟨[("k", ⟨true, ⟨none⟩⟩), ("i", ⟨false, ⟨some ⟨⟨"Static", "dev"⟩⟩⟩⟩)]⟩)]
    [("b1", (⟨[("j", ⟨true, ⟨none⟩⟩)]⟩ : Sources)),
     ("b2", ⟨[("j", ⟨true, ⟨some ⟨⟨"Static", "dev"⟩⟩⟩⟩),
              ("k", ⟨true, ⟨some ⟨⟨"Static", "ops"⟩⟩⟩⟩)]⟩),
     ("b3", ⟨[("i", ⟨false, ⟨none⟩⟩), ("k", ⟨true, ⟨none⟩⟩)]⟩)]
    ["b1", "b2", "b3"]
    [("j", ["b1", "b2"]), ("k", ["b2", "b3"])]
    [("k", ["b2", "b3"]), ("j", ["b1", "b2"])]
    (by decide) (by decide)
    (by
      intro b hb
      simp only [List.mem_cons, List.mem_singleton, List.not_mem_nil, or_false] at hb
      rcases hb with rfl | rfl | rfl
      · exact SameButDisabled_of_replaced _ _ (DisabledReplaced_replaceDisabledRBAC _ "" none)
      · exact SameButDisabled_of_replaced _ _ (DisabledReplaced_replaceDisabledRBAC _ "" none)
      · exact SameButDisabled_of_replaced_perm
          [("k", ⟨true, ⟨none⟩⟩), ("i", ⟨false, ⟨some ⟨⟨"Static", "dev"⟩⟩⟩⟩)]
          (replaceDisabledRBAC
            [("k", ⟨true, ⟨none⟩⟩), ("i", ⟨false, ⟨some ⟨⟨"Static", "dev"⟩⟩⟩⟩)] "i" none)
          [("i", ⟨false, ⟨none⟩⟩), ("k", ⟨true, ⟨none⟩⟩)]
          (DisabledReplaced_replaceDisabledRBAC _ "i" none) (by decide) (by decide))
    (by decide) (by decide)).1, by decide⟩

/-! ## Visiting order of the channel map -/

/-- In a map without empty identifier the report of `validateChannels` is the same
collection of violations in every visiting order. -/
theorem validateChannels_perm_of_nonempty {T : Type} [Identifiable T]
    (normalize : String → String) (regex : Regexp) (shouldNormalize : Bool)
    (fieldName docsURL : String) (channels channels' : GoMap T)
    (hperm : List.Perm channels channels')
    (hne : ∀ e ∈ channels, Identifiable.Identifier e.2 ≠ "") :
    List.Perm
      (validateChannels normalize regex shouldNormalize channels fieldName docsURL)
      (validateChannels normalize regex shouldNormalize channels' fieldName docsURL) := by
  have hne' : ∀ e ∈ channels', Identifiable.Identifier e.2 ≠ "" :=
    fun e he => hne e (hperm.mem_iff.2 he)
  unfold validateChannels
  rw [validateChannelsLoop_of_nonempty normalize regex shouldNormalize fieldName docsURL
      channels hne,
    validateChannelsLoop_of_nonempty normalize regex shouldNormalize fieldName docsURL
      channels' hne', hperm.length_eq]
  exact List.Perm.append_left _ (hperm.flatMap_right _)

/-- C17, the code at the failing input. The Slack channel map with the entries `a` (empty
name) and `b` (name "Dev Ops", which fails the grammar) gets one violation when `a` is
visited first and two when `b` is visited first: the two enumerations of the same map do
not yield the same collection of violations. -/
theorem channel_order_dependence :
    List.Perm ([("a", ⟨""⟩), ("b", ⟨"Dev Ops"⟩)] : GoMap ChannelBindingsByName)
      [("b", ⟨"Dev Ops"⟩), ("a", ⟨""⟩)]
    ∧ validateChannels trimNormalize slackChannelNameRegex true
        ([("a", ⟨""⟩), ("b", ⟨"Dev Ops"⟩)] : GoMap ChannelBindingsByName) "Name" slackDocsURL
      = [ReportError "Name" "Name" "required" ""]
    ∧ validateChannels trimNormalize slackChannelNameRegex true
        ([("b", ⟨"Dev Ops"⟩), ("a", ⟨""⟩)] : GoMap ChannelBindingsByName) "Name" slackDocsURL
      = [ReportError "Dev Ops" "b.Name" invalidChannelNameTag slackDocsURL,
         ReportError "Name" "Name" "required" ""]
    ∧ ¬ List.Perm
        (validateChannels trimNormalize slackChannelNameRegex true
          ([("a", ⟨""⟩), ("b", ⟨"Dev Ops"⟩)] : GoMap ChannelBindingsByName) "Name"
          slackDocsURL)
        (validateChannels trimNormalize slackChannelNameRegex true
          ([("b", ⟨"Dev Ops"⟩), ("a", ⟨""⟩)] : GoMap ChannelBindingsByName) "Name"
          slackDocsURL) := by
  refine ⟨List.Perm.swap _ _ _, by decide, by decide, fun h => ?_⟩
  have hlen := h.length_eq
  revert hlen
  decide

end Botkube
